import Mathlib

/-!
Verification model of the Apple-Silicon HVF accelerator backend
(target/arm/hvf.c): the guest-physical memory slot table and its mirror
slots, the register push/pull layer, and the exception/MMIO dispatch path.
Machine integers are modelled as Nat with explicit reduction modulo 2^64
exactly where the C code performs wrapping uint64_t arithmetic.
qemu_abort / abort() (process termination) is modelled by Option.none:
an aborted operation has no successor state.
-/

set_option maxRecDepth 100000
set_option synthInstance.maxSize 2000
set_option maxHeartbeats 1000000

namespace HvfModel

/-- Number of values of a 64-bit machine word. -/
def U64 : Nat := 2 ^ 64

/-- Wrapping addition of two 64-bit unsigned integers, as in C. -/
def u64add (a b : Nat) : Nat := (a + b) % U64

/-- One guest-physical memory slot (struct hvf_slot).  The slot_id field of
the C struct always equals the slot's index in hvf_state->slots (set once in
hvf_accel_init and never changed), so here the list index plays that role. -/
structure HSlot where
  start : Nat
  size : Nat
  mem : Nat
  deriving Repr, DecidableEq

/-- Mirror slot (struct mac_slot): what the hardware engine currently
believes is mapped.  The gva field of the C struct is never used anywhere
in the source and is omitted. -/
structure MSlot where
  present : Bool
  size : Nat
  gpa_start : Nat
  hva : Nat
  deriving Repr, DecidableEq

/-- A hardware-layer memory call (hv_vm_map / hv_vm_unmap), recorded in
issue order. -/
inductive HwCall where
  | map (hva gpa size flags : Nat)
  | unmap (gpa size : Nat)
  deriving Repr, DecidableEq

/-- Process-wide memory-mapping state: hvf_state->slots, mac_slots, and the
log of hardware map/unmap calls issued so far. -/
structure MemState where
  slots : List HSlot
  macs : List MSlot
  log : List HwCall
  deriving Repr, DecidableEq

/-- Index of the first list element satisfying p; the C linear scans return
a pointer to the first matching slot, rendered here as its index. -/
def findFirstIdx {α : Type} (p : α → Bool) : List α → Option Nat
  | [] => none
  | a :: l => if p a then some 0 else (findFirstIdx p l).map (· + 1)

/-- The per-slot test of hvf_find_overlap_slot:
slot->size && start < (slot->start + slot->size) && end > slot->start,
with the uint64_t addition wrapping. -/
def slotHits (start end_ : Nat) (s : HSlot) : Bool :=
  s.size != 0 && decide (start < u64add s.start s.size) && decide (end_ > s.start)

/-- hvf_find_overlap_slot: first slot whose range intersects [start, end_). -/
def hvf_find_overlap_slot (slots : List HSlot) (start end_ : Nat) : Option Nat :=
  findFirstIdx (slotHits start end_) slots

/-- hvf_next_free_slot: first slot with size 0.  When no slot is free the C
loop leaves mem pointing at the last slot; none models the NULL pointer
returned only when the table is empty. -/
def hvf_next_free_slot (slots : List HSlot) : Option Nat :=
  match findFirstIdx (fun s => s.size == 0) slots with
  | some i => some i
  | none => if slots.length = 0 then none else some (slots.length - 1)

/-- Slot at index i (C pointer dereference; the default is never reached on
the paths the code exercises). -/
def slotAt (l : List HSlot) (i : Nat) : HSlot := l.getD i ⟨0, 0, 0⟩

/-- Mirror slot at index i. -/
def macAt (l : List MSlot) (i : Nat) : MSlot := l.getD i ⟨false, 0, 0, 0⟩

/-- __hvf_set_memory_with_flags_locked: commit slot idx to the hardware
layer, updating its mirror slot and logging the hv_vm_unmap / hv_vm_map
calls.  The hardware calls are modelled as succeeding (assert_hvf_ok aborts
the process otherwise), after which the C function returns 0. -/
def hvf_set_memory_with_flags_locked (st : MemState) (idx : Nat) (flags : Nat) : MemState :=
  let slot := slotAt st.slots idx
  let mac := macAt st.macs idx
  let st1 :=
    if mac.present && (mac.size != slot.size) then
      { st with macs := st.macs.set idx { mac with present := false },
                log := st.log ++ [HwCall.unmap mac.gpa_start mac.size] }
    else st
  if slot.size = 0 then st1
  else
    { st1 with
      macs := st1.macs.set idx ⟨true, slot.size, slot.start, slot.mem⟩,
      log := st1.log ++ [HwCall.map slot.mem slot.start slot.size flags] }

def HV_SUCCESS : Nat := 0

/-- hvf_map_safe.  none models qemu_abort (the process terminates, so no
state and no further hardware calls are ever observed). -/
def hvf_map_safe (st : MemState) (hva gpa size flags : Nat) : Option (MemState × Nat) :=
  let claimNew : MemState → Option (MemState × Nat) := fun st =>
    match hvf_next_free_slot st.slots with
    | none => none
    | some j =>
      if (slotAt st.slots j).size ≠ 0 then none
      else
        let st := { st with slots := st.slots.set j ⟨gpa, size, hva⟩ }
        some (hvf_set_memory_with_flags_locked st j flags, 0)
  match hvf_find_overlap_slot st.slots gpa (u64add gpa size) with
  | some i =>
    let mem := slotAt st.slots i
    if mem.mem = hva ∧ mem.start = gpa ∧ mem.size = size then
      some (st, HV_SUCCESS)
    else if mem.start = gpa ∧ mem.size = size then
      let st := { st with slots := st.slots.set i { mem with size := 0 } }
      claimNew (hvf_set_memory_with_flags_locked st i 0)
    else
      none
  | none => claimNew st

/-- hvf_unmap_safe: exact-range unmap; partial overlap aborts; unmapping a
range with no slot is a successful no-op. -/
def hvf_unmap_safe (st : MemState) (gpa size : Nat) : Option (MemState × Nat) :=
  match hvf_find_overlap_slot st.slots gpa (u64add gpa size) with
  | some i =>
    let mem := slotAt st.slots i
    if mem.start ≠ gpa ∨ mem.size ≠ size then none
    else
      let st1 := { st with slots := st.slots.set i { mem with size := 0 } }
      some (hvf_set_memory_with_flags_locked st1 i 0, 0)
  | none => some (st, 0)

def HV_MEMORY_RWX : Nat := 7

/-- hvf_set_phys_mem: memory-listener region add / remove.  is_ram and
user_backed come from the MemoryRegion; non-RAM or user-backed sections are
skipped.  Unlike hvf_map_safe, the C code does not check that the slot
returned by hvf_next_free_slot is actually free before overwriting it. -/
def hvf_set_phys_mem (st : MemState) (gpa size hva : Nat) (add is_ram user_backed : Bool) :
    Option MemState :=
  if !is_ram then some st
  else if user_backed then some st
  else
    let mkNew : MemState → Option MemState := fun st =>
      if !add then some st
      else
        match hvf_next_free_slot st.slots with
        | none => none
        | some j =>
          let st := { st with slots := st.slots.set j ⟨gpa, size, hva⟩ }
          some (hvf_set_memory_with_flags_locked st j HV_MEMORY_RWX)
    match hvf_find_overlap_slot st.slots gpa (u64add gpa size) with
    | some i =>
      let mem := slotAt st.slots i
      if add ∧ mem.size = size ∧ mem.start = gpa ∧ mem.mem = hva then some st
      else
        let st1 := { st with slots := st.slots.set i { mem with size := 0 } }
        mkNew (hvf_set_memory_with_flags_locked st1 i HV_MEMORY_RWX)
    | none => mkNew st

/-- hvf_gpa2hva: linear scan over the mirror slots; the C out-parameter
found is rendered as the Option. -/
def hvf_gpa2hva (macs : List MSlot) (gpa : Nat) : Option Nat :=
  match findFirstIdx
      (fun m => m.present && decide (gpa ≥ m.gpa_start) &&
        decide (gpa < u64add m.gpa_start m.size)) macs with
  | some i => some (u64add (macAt macs i).hva (gpa - (macAt macs i).gpa_start))
  | none => none

/-- One step of the hvf_hva2gpa scan over a mirror slot: every matching
fragment is counted, but recorded into the output arrays only while
count < array_size. -/
def hva2gpaStep (hva length array_size : Nat) (acc : Nat × List (Nat × Nat)) (m : MSlot) :
    Nat × List (Nat × Nat) :=
  if !m.present then acc
  else
    let record : Nat × Nat → Nat × List (Nat × Nat) := fun frag =>
      (acc.1 + 1, if acc.1 < array_size then acc.2 ++ [frag] else acc.2)
    if decide (hva ≥ m.hva) && decide (hva < u64add m.hva m.size) then
      record (u64add m.gpa_start (hva - m.hva), min length (m.size - (hva - m.hva)))
    else if decide (u64add hva length ≤ u64add m.hva m.size) &&
        decide (u64add hva length > m.hva) then
      record (m.gpa_start, u64add hva length - m.hva)
    else if decide (u64add hva length > u64add m.hva m.size) && decide (hva < m.hva) then
      record (m.gpa_start, m.size)
    else acc

/-- hvf_hva2gpa: inverse lookup, returning the fragment count and the
recorded (gpa, size) fragments in scan order. -/
def hvf_hva2gpa (macs : List MSlot) (hva length array_size : Nat) : Nat × List (Nat × Nat) :=
  macs.foldl (hva2gpaStep hva length array_size) (0, [])

/-- The four externally driven mutations of the slot table. -/
inductive MemOp where
  | mapOp (hva gpa size flags : Nat)
  | unmapOp (gpa size : Nat)
  | regionAddOp (gpa size hva : Nat)
  | regionDelOp (gpa size hva : Nat)

/-- Apply one operation; none is process abort. -/
def applyOp (st : MemState) : MemOp → Option MemState
  | .mapOp hva gpa size flags => (hvf_map_safe st hva gpa size flags).map Prod.fst
  | .unmapOp gpa size => (hvf_unmap_safe st gpa size).map Prod.fst
  | .regionAddOp gpa size hva => hvf_set_phys_mem st gpa size hva true true false
  | .regionDelOp gpa size hva => hvf_set_phys_mem st gpa size hva false true false

def HVF_MAX_SLOTS : Nat := 512

/-- Initial state after hvf_accel_init: all 512 slots free, mirror slots
zero-initialized (file-scope array), no hardware calls issued. -/
def initState : MemState :=
  { slots := List.replicate HVF_MAX_SLOTS ⟨0, 0, 0⟩,
    macs := List.replicate HVF_MAX_SLOTS ⟨false, 0, 0, 0⟩,
    log := [] }

/-- Run a sequence of operations from the initial table. -/
def runOps (ops : List MemOp) : Option MemState :=
  ops.foldlM applyOp initState

/-- Number of active slots overlapping [start, end_) per the code's test. -/
def overlapCount (slots : List HSlot) (start end_ : Nat) : Nat :=
  (slots.filter (slotHits start end_)).length

/-- Ranges that do not wrap the 64-bit address space. -/
def MemOp.wf : MemOp → Prop
  | .mapOp _ gpa size _ => gpa + size < U64
  | .unmapOp gpa size => gpa + size < U64
  | .regionAddOp gpa size _ => gpa + size < U64
  | .regionDelOp gpa size _ => gpa + size < U64

/-- States reachable from the initial table by map/unmap/region-add/
region-remove operations whose ranges do not wrap the 64-bit address space
and where every region-add range overlaps at most one active slot. -/
inductive ReachesA : MemState → Prop where
  | init : ReachesA initState
  | step (st st2 : MemState) (op : MemOp) (hr : ReachesA st) (hwf : op.wf)
      (hadd : ∀ gpa size hva, op = .regionAddOp gpa size hva →
        overlapCount st.slots gpa (u64add gpa size) ≤ 1)
      (happ : applyOp st op = some st2) : ReachesA st2

/-- Interval disjointness of two slots, as the spec states it. -/
def slotsDisjoint (a b : HSlot) : Prop :=
  a.size ≠ 0 → b.size ≠ 0 → a.start + a.size ≤ b.start ∨ b.start + b.size ≤ a.start

/-- Well-formedness carried by every reachable state: slot and mirror lists
have equal length, active slot ranges do not wrap, active slot ranges are
pairwise disjoint, and each mirror slot mirrors its slot exactly
(free slots have absent mirrors). -/
def Inv (st : MemState) : Prop :=
  st.slots.length = st.macs.length ∧
  (∀ i, i < st.slots.length → (slotAt st.slots i).size ≠ 0 →
     (slotAt st.slots i).start + (slotAt st.slots i).size < U64) ∧
  (∀ i, i < st.slots.length → ∀ j, j < st.slots.length → i ≠ j →
     slotsDisjoint (slotAt st.slots i) (slotAt st.slots j)) ∧
  (∀ i, i < st.slots.length →
     if (slotAt st.slots i).size ≠ 0 then
       macAt st.macs i = ⟨true, (slotAt st.slots i).size, (slotAt st.slots i).start,
         (slotAt st.slots i).mem⟩
     else (macAt st.macs i).present = false)

/-! ### Register transfer (hvf_put_registers / hvf_get_registers) -/

/-- Emulator-side CPU state (the fields of CPUARMState touched by the
transfer catalog).  SIMD/FP vector registers are 128-bit values; all
registers are modelled as Nat.  banked_spsr[aarch64_banked_spsr_index(1)]
is the spsr_el1 field; env->cp15.tcr_el[1].raw_tcr is the tcr_el1 field. -/
structure Env where
  xregs : Nat → Nat
  pc : Nat
  pstate : Nat
  sp_el0 : Nat
  sp_el1 : Nat
  elr_el1 : Nat
  spsr_el1 : Nat
  vregs : Nat → Nat
  fpsr : Nat
  fpcr : Nat
  apda_hi : Nat
  apda_lo : Nat
  apdb_hi : Nat
  apdb_lo : Nat
  apga_hi : Nat
  apga_lo : Nat
  apia_hi : Nat
  apia_lo : Nat
  apib_hi : Nat
  apib_lo : Nat
  c14_cntkctl : Nat
  contextidr_el1 : Nat
  cpacr_el1 : Nat
  csselr_el1 : Nat
  esr_el1 : Nat
  far_el1 : Nat
  mair_el1 : Nat
  mdscr_el1 : Nat
  par_el1 : Nat
  sctlr_el1 : Nat
  tcr_el1 : Nat
  tpidrro_el0 : Nat
  tpidr_el0 : Nat
  tpidr_el1 : Nat
  ttbr0_el1 : Nat
  ttbr1_el1 : Nat
  vbar_el1 : Nat

/-- Hardware-engine per-vCPU register file: the HV_REG / HV_SYS_REG /
HV_SIMD_FP_REG registers the source reads or writes.  xr i is HV_REG_Xi,
q i is HV_SIMD_FP_REG_Qi. -/
structure Hw where
  xr : Nat → Nat
  cpsr : Nat
  pc : Nat
  fpsr : Nat
  fpcr : Nat
  q : Nat → Nat
  sp_el0 : Nat
  sp_el1 : Nat
  elr_el1 : Nat
  spsr_el1 : Nat
  apdakeyhi : Nat
  apdakeylo : Nat
  apdbkeyhi : Nat
  apdbkeylo : Nat
  apgakeyhi : Nat
  apgakeylo : Nat
  apiakeyhi : Nat
  apiakeylo : Nat
  apibkeyhi : Nat
  apibkeylo : Nat
  cntkctl : Nat
  contextidr : Nat
  cpacr : Nat
  csselr : Nat
  esr : Nat
  far : Nat
  mair : Nat
  mdscr : Nat
  par : Nat
  sctlr : Nat
  tcr : Nat
  tpidrro : Nat
  tpidr_el0 : Nat
  tpidr_el1 : Nat
  ttbr0 : Nat
  ttbr1 : Nat
  vbar : Nat
  cntv_cval : Nat

/-- PSTATE.SP bit (SPSel). -/
def PSTATE_SP : Nat := 1

/-- PSTATE.nRW bit (aarch32 mode marker). -/
def PSTATE_nRW : Nat := 16

/-- regno_to_hv_xreg: switch mapping register number 0..30 to HV_REG_X0..X30
(the default case returns HV_REG_X30). -/
def regno_to_hv_xreg (i : Nat) : Nat := if i ≤ 30 then i else 30

/-- regno_to_hv_simd_fp_reg_type: switch mapping SIMD register number to
HV_SIMD_FP_REG_Qn.  Note: in the source, case 30 returns
HV_SIMD_FP_REG_Q20, not Q30. -/
def regno_to_hv_simd_fp_reg_type (i : Nat) : Nat := if i = 30 then 20 else i

/-- The put-side loop: for (i = 0; i < n; ++i)
hv_vcpu_set_reg(fd, regno_to_hv_xreg(i), env->xregs[i]). -/
def writeXregsLoop (v : Nat → Nat) (hx : Nat → Nat) : Nat → (Nat → Nat)
  | 0 => hx
  | n + 1 => Function.update (writeXregsLoop v hx n) (regno_to_hv_xreg n) (v n)

/-- The put-side loop: for (i = 0; i < n; ++i)
hv_vcpu_set_simd_fp_reg(fd, regno_to_hv_simd_fp_reg_type(i), qreg(env, i)). -/
def writeSimdLoop (v : Nat → Nat) (hq : Nat → Nat) : Nat → (Nat → Nat)
  | 0 => hq
  | n + 1 => Function.update (writeSimdLoop v hq n) (regno_to_hv_simd_fp_reg_type n) (v n)

/-- The get-side loop: for (i = 0; i < n; ++i)
hv_vcpu_get_reg(fd, regno_to_hv_xreg(i), &env->xregs[i]). -/
def readXregsLoop (hx : Nat → Nat) (v : Nat → Nat) : Nat → (Nat → Nat)
  | 0 => v
  | n + 1 => Function.update (readXregsLoop hx v n) n (hx (regno_to_hv_xreg n))

/-- The get-side loop: for (i = 0; i < n; ++i) reads
HV_SIMD_FP_REG regno_to_hv_simd_fp_reg_type(i) into qreg(env, i). -/
def readSimdLoop (hq : Nat → Nat) (v : Nat → Nat) : Nat → (Nat → Nat)
  | 0 => v
  | n + 1 => Function.update (readSimdLoop hq v n) n (hq (regno_to_hv_simd_fp_reg_type n))

/-- Modelled from the spec: QEMU's aarch64_save_sp(env, 1) (target/arm code
outside the analyzed source) stores the current xregs[31] into the stack
pointer selected by PSTATE.SP (sp_el[1] when set, else sp_el[0]). -/
def aarch64_save_sp (env : Env) : Env :=
  if env.pstate &&& PSTATE_SP ≠ 0 then { env with sp_el1 := env.xregs 31 }
  else { env with sp_el0 := env.xregs 31 }

/-- Modelled from the spec: QEMU's aarch64_restore_sp(env, 1) loads
xregs[31] from the stack pointer selected by PSTATE.SP. -/
def aarch64_restore_sp (env : Env) : Env :=
  if env.pstate &&& PSTATE_SP ≠ 0 then
    { env with xregs := Function.update env.xregs 31 env.sp_el1 }
  else { env with xregs := Function.update env.xregs 31 env.sp_el0 }

/-- Modelled from the spec: pstate_read composes the current processor
state value; the processor state is modelled as the single field pstate. -/
def pstate_read (env : Env) : Nat := env.pstate

/-- Modelled from the spec: pstate_write stores a processor state value. -/
def pstate_write (env : Env) (val : Nat) : Env := { env with pstate := val }

/-- hvf_put_registers: push the full register catalog from the emulator
state to the hardware engine, in source order.  The C function mutates env
through aarch64_save_sp, so it returns the updated Env alongside the
updated hardware file; it then returns 0. -/
def hvf_put_registers (env : Env) (hw : Hw) : Env × Hw :=
  let hw := { hw with xr := writeXregsLoop env.xregs hw.xr 31 }
  let env := aarch64_save_sp env
  let hw := { hw with sp_el0 := env.sp_el0, sp_el1 := env.sp_el1 }
  let hw := { hw with cpsr := pstate_read env }
  let hw := { hw with pc := env.pc }
  let hw := { hw with elr_el1 := env.elr_el1 }
  let hw := { hw with spsr_el1 := env.spsr_el1 }
  let hw := { hw with q := writeSimdLoop env.vregs hw.q 32,
                      fpsr := env.fpsr, fpcr := env.fpcr }
  let hw := { hw with
    apdakeyhi := env.apda_hi, apdakeylo := env.apda_lo,
    apdbkeyhi := env.apdb_hi, apdbkeylo := env.apdb_lo,
    apgakeyhi := env.apga_hi, apgakeylo := env.apga_lo,
    apiakeyhi := env.apia_hi, apiakeylo := env.apia_lo,
    apibkeyhi := env.apib_hi, apibkeylo := env.apib_lo }
  let hw := { hw with
    cntkctl := env.c14_cntkctl, contextidr := env.contextidr_el1,
    cpacr := env.cpacr_el1, csselr := env.csselr_el1, esr := env.esr_el1,
    far := env.far_el1, mair := env.mair_el1, mdscr := env.mdscr_el1,
    par := env.par_el1, sctlr := env.sctlr_el1, tcr := env.tcr_el1,
    tpidrro := env.tpidrro_el0, tpidr_el0 := env.tpidr_el0,
    tpidr_el1 := env.tpidr_el1, ttbr0 := env.ttbr0_el1,
    ttbr1 := env.ttbr1_el1, vbar := env.vbar_el1 }
  (env, hw)

/-- hvf_get_registers: pull the full register catalog from the hardware
engine into the emulator state, in source order.  If the pulled CPSR has
PSTATE_nRW set (aarch32 mode) the source calls abort(), modelled as none. -/
def hvf_get_registers (env : Env) (hw : Hw) : Option Env :=
  let env := { env with xregs := readXregsLoop hw.xr env.xregs 31 }
  let env := { env with sp_el0 := hw.sp_el0, sp_el1 := hw.sp_el1 }
  let val := hw.cpsr
  if val &&& PSTATE_nRW ≠ 0 then none
  else
    let env := pstate_write env val
    let env := aarch64_restore_sp env
    let env := { env with pc := hw.pc }
    let env := { env with elr_el1 := hw.elr_el1 }
    let env := { env with spsr_el1 := hw.spsr_el1 }
    let env := { env with vregs := readSimdLoop hw.q env.vregs 32,
                          fpsr := hw.fpsr, fpcr := hw.fpcr }
    let env := { env with
      apda_hi := hw.apdakeyhi, apda_lo := hw.apdakeylo,
      apdb_hi := hw.apdbkeyhi, apdb_lo := hw.apdbkeylo,
      apga_hi := hw.apgakeyhi, apga_lo := hw.apgakeylo,
      apia_hi := hw.apiakeyhi, apia_lo := hw.apiakeylo,
      apib_hi := hw.apibkeyhi, apib_lo := hw.apibkeylo }
    let env := { env with
      c14_cntkctl := hw.cntkctl, contextidr_el1 := hw.contextidr,
      cpacr_el1 := hw.cpacr, csselr_el1 := hw.csselr, esr_el1 := hw.esr,
      far_el1 := hw.far, mair_el1 := hw.mair, mdscr_el1 := hw.mdscr,
      par_el1 := hw.par, sctlr_el1 := hw.sctlr, tcr_el1 := hw.tcr,
      tpidrro_el0 := hw.tpidrro, tpidr_el0 := hw.tpidr_el0,
      tpidr_el1 := hw.tpidr_el1, ttbr0_el1 := hw.ttbr0,
      ttbr1_el1 := hw.ttbr1, vbar_el1 := hw.vbar }
    some env

/-- push() immediately followed by pull() with no intervening hardware run. -/
def pushPullRoundTrip (env : Env) (hw : Hw) : Option Env :=
  let r := hvf_put_registers env hw
  hvf_get_registers r.1 r.2

/-! ### Exception syndrome decode and MMIO emulation -/

/-- ESR_ELx field constants, per the ARM architecture layout used by the
esr.h header the source includes (the header itself is not under the
analyzed sources). -/
def ESR_ELx_ISV : Nat := 0x1000000

def ESR_ELx_SAS : Nat := 0xC00000

def ESR_ELx_SAS_SHIFT : Nat := 22

def ESR_ELx_SSE : Nat := 0x200000

def ESR_ELx_SRT_MASK : Nat := 0x1F0000

def ESR_ELx_SRT_SHIFT : Nat := 16

def ESR_ELx_EA : Nat := 0x200

def ESR_ELx_CM : Nat := 0x100

def ESR_ELx_S1PTW : Nat := 0x80

def ESR_ELx_WNR : Nat := 0x40

def ESR_ELx_FSC_TYPE : Nat := 0x3C

def ESR_ELx_FSC_ACCESS : Nat := 0x08

def ESR_ELx_SYS64_ISS_DIR_MASK : Nat := 0x1

def ESR_ELx_SYS64_ISS_DIR_WRITE : Nat := 0x0

def ESR_ELx_SYS64_ISS_RT_MASK : Nat := 0x3E0

def ESR_ELx_SYS64_ISS_RT_SHIFT : Nat := 5

def ESR_ELx_SYS64_ISS_SYS_MASK : Nat := 0x3FFC1E

/-- Exception class field of a syndrome: ESR_ELx_EC(esr). -/
def ESR_ELx_EC (esr : Nat) : Nat := (esr >>> 26) &&& 0x3F

def ESR_ELx_EC_WFx : Nat := 0x01

def ESR_ELx_EC_CP15_32 : Nat := 0x03

def ESR_ELx_EC_CP15_64 : Nat := 0x04

def ESR_ELx_EC_CP14_MR : Nat := 0x05

def ESR_ELx_EC_CP14_LS : Nat := 0x06

def ESR_ELx_EC_CP14_64 : Nat := 0x0C

def ESR_ELx_EC_HVC32 : Nat := 0x12

def ESR_ELx_EC_SMC32 : Nat := 0x13

def ESR_ELx_EC_HVC64 : Nat := 0x16

def ESR_ELx_EC_SMC64 : Nat := 0x17

def ESR_ELx_EC_SYS64 : Nat := 0x18

def ESR_ELx_EC_IABT_LOW : Nat := 0x20

def ESR_ELx_EC_DABT_LOW : Nat := 0x24

def ESR_ELx_EC_BREAKPT_LOW : Nat := 0x30

def ESR_ELx_EC_SOFTSTP_LOW : Nat := 0x32

def ESR_ELx_EC_WATCHPT_LOW : Nat := 0x34

def ESR_ELx_EC_BKPT32 : Nat := 0x38

def ESR_ELx_EC_BRK64 : Nat := 0x3C

/-- hvf_read_rt: register 31 reads as zero. -/
def hvf_read_rt (env : Env) (rt : Nat) : Nat :=
  if rt = 31 then 0 else env.xregs rt

/-- hvf_write_rt: writes to register 31 are discarded. -/
def hvf_write_rt (env : Env) (rt : Nat) (val : Nat) : Env :=
  if rt ≠ 31 then { env with xregs := Function.update env.xregs rt val } else env

/-- hvf_skip_instr: env->pc += 4 (uint64_t). -/
def hvf_skip_instr (env : Env) : Env := { env with pc := u64add env.pc 4 }

/-- The fields hvf_decode_hsr decodes out of a data-abort syndrome. -/
structure DecodedDabt where
  is_write : Bool
  len : Nat
  sign_extend : Bool
  rt : Nat

/-- hvf_vcpu_dabt_get_as: access size 1 << SAS. -/
def hvf_vcpu_dabt_get_as (esr : Nat) : Nat :=
  2 ^ ((esr &&& ESR_ELx_SAS) >>> ESR_ELx_SAS_SHIFT)

/-- hvf_vcpu_dabt_get_rd: target register from SRT. -/
def hvf_vcpu_dabt_get_rd (esr : Nat) : Nat :=
  (esr &&& ESR_ELx_SRT_MASK) >>> ESR_ELx_SRT_SHIFT

/-- hvf_decode_hsr: aborts (none) on external aborts and stage-1
page-table-walk faults; otherwise decodes direction, width, sign extension
and target register, and advances the pc past the trapping instruction
(hvf_skip_instr at the end of the function). -/
def hvf_decode_hsr (env : Env) (esr : Nat) : Option (Env × DecodedDabt) :=
  if (esr &&& ESR_ELx_EA) != 0 then none
  else if (esr &&& ESR_ELx_S1PTW) != 0 then none
  else
    let access_size := hvf_vcpu_dabt_get_as esr
    some (hvf_skip_instr env,
      { is_write := (esr &&& ESR_ELx_WNR) != 0,
        len := access_size,
        sign_extend := (esr &&& ESR_ELx_SSE) != 0,
        rt := hvf_vcpu_dabt_get_rd esr })

/-- One memory-bus transaction issued by address_space_rw. -/
inductive BusTx where
  | read (gpa len : Nat)
  | write (gpa len data : Nat)
  deriving Repr, DecidableEq

/-- hvf_handle_mmio.  bus gpa len is the len-byte little-endian value the
device model stores into the scratch buffer on a read; buf0 is the initial
(uninitialized stack) content of the 8-byte scratch buffer data_buf, whose
upper bytes survive the read because the code always memcpys all 8 bytes
into val.  In the read switch, case 1 truncates val; cases 2 and 4 assign
the truncated value to the local variable data, which is never read again,
so val itself stays untruncated (and sign_extend is never consulted). -/
def hvf_handle_mmio (env : Env) (esr gpa : Nat) (bus : Nat → Nat → Nat) (buf0 : Nat) :
    Option (Env × List BusTx) :=
  if (esr &&& ESR_ELx_ISV) == 0 then none
  else
    match hvf_decode_hsr env esr with
    | none => none
    | some (env, d) =>
      if d.is_write then
        let guest_reg_val := hvf_read_rt env d.rt
        let data :=
          if d.len = 1 then guest_reg_val &&& 0xff
          else if d.len = 2 then guest_reg_val &&& 0xffff
          else if d.len = 4 then guest_reg_val &&& 0xffffffff
          else guest_reg_val
        some (env, [BusTx.write gpa d.len data])
      else
        let m := 2 ^ (8 * d.len)
        let val := ((buf0 % U64) / m) * m + bus gpa d.len % m
        let val := if d.len = 1 then val &&& 0xff else val
        some (hvf_write_rt env d.rt val, [BusTx.read gpa d.len])

/-! ### Exception dispatch and the run loop -/

/-- Exit reasons reported by hv_vcpu_run. -/
inductive ExitReason where
  | canceled
  | exception
  | vtimerActivated
  | other
  deriving DecidableEq

/-- External collaborators of the exception handlers, abstracted: the PSCI
firmware-call emulation (arm_is_psci_call / arm_handle_psci_call live
outside the analyzed source) and the memory bus used by MMIO. -/
structure ExtHooks where
  psciMatch : Env → Bool
  psciRun : Env → Env
  bus : Nat → Nat → Nat
  buf0 : Nat

/-- Per-vCPU state as seen by the run loop: emulator registers, hardware
register file, the dirty flag, the slot table (for abort classification),
the pending exit record, and the accumulated bus transactions. -/
structure VState where
  env : Env
  hw : Hw
  dirty : Bool
  slots : List HSlot
  reason : ExitReason
  syndrome : Nat
  pa : Nat
  txs : List BusTx

/-- hvf_handle_wfx: reads HV_SYS_REG_CNTV_CVAL_EL0 and the physical counter
and blocks the thread until the virtual-timer deadline (or a signal); it
changes no register state. -/
def hvf_handle_wfx (env : Env) : Env := env

/-- hvf_handle_hvc: dispatch PSCI calls to the firmware emulation,
otherwise xregs[0] = (uint64_t)-1. -/
def hvf_handle_hvc (psciMatch : Env → Bool) (psciRun : Env → Env) (env : Env) : Env :=
  if psciMatch env then psciRun env
  else { env with xregs := Function.update env.xregs 0 (U64 - 1) }

/-- hvf_handle_sys_reg: osdlr_el1 / oslar_el1 are handled as
read-as-zero / write-ignored and the pc is advanced; any other system
register aborts. -/
def hvf_handle_sys_reg (env : Env) (esr : Nat) : Option Env :=
  let is_write := (esr &&& ESR_ELx_SYS64_ISS_DIR_MASK) == ESR_ELx_SYS64_ISS_DIR_WRITE
  let rt := (esr &&& ESR_ELx_SYS64_ISS_RT_MASK) >>> ESR_ELx_SYS64_ISS_RT_SHIFT
  let sys := esr &&& ESR_ELx_SYS64_ISS_SYS_MASK
  if sys = 0x280406 ∨ sys = 0x280400 then
    let env := if !is_write then hvf_write_rt env rt 0 else env
    some (hvf_skip_instr env)
  else none

/-- hvf_handle_guest_abort: access-flag faults abort; an abort at an
address covered by no slot is MMIO (instruction aborts and cache
maintenance operations on I/O addresses abort); an abort at a covered
address falls through to user_mem_abort, which aborts. -/
def hvf_handle_guest_abort (env : Env) (slots : List HSlot) (esr gpa ec : Nat)
    (bus : Nat → Nat → Nat) (buf0 : Nat) : Option (Env × List BusTx) :=
  let slot := hvf_find_overlap_slot slots gpa (u64add gpa 1)
  let fault_status := esr &&& ESR_ELx_FSC_TYPE
  let is_iabt := ec == ESR_ELx_EC_IABT_LOW
  let is_cm := (esr &&& ESR_ELx_CM) != 0
  if fault_status == ESR_ELx_FSC_ACCESS then none
  else
    match slot with
    | none =>
      if is_iabt then none
      else if is_cm then none
      else hvf_handle_mmio env esr gpa bus buf0
    | some _ => none

/-- hvf_handle_exception: pull the registers, dispatch on the exception
class (unimplemented classes abort; the default case pulls and pushes the
registers for diagnostics and then aborts), then push the registers back. -/
def hvf_handle_exception (hooks : ExtHooks) (st : VState) : Option VState :=
  match hvf_get_registers st.env st.hw with
  | none => none
  | some env =>
    let ec := ESR_ELx_EC st.syndrome
    let step : Option (Env × List BusTx) :=
      if ec = ESR_ELx_EC_WFx then some (hvf_handle_wfx env, [])
      else if ec = ESR_ELx_EC_CP15_32 ∨ ec = ESR_ELx_EC_CP15_64 ∨
          ec = ESR_ELx_EC_CP14_MR ∨ ec = ESR_ELx_EC_CP14_LS ∨
          ec = ESR_ELx_EC_CP14_64 then none
      else if ec = ESR_ELx_EC_HVC32 ∨ ec = ESR_ELx_EC_HVC64 then
        some (hvf_handle_hvc hooks.psciMatch hooks.psciRun env, [])
      else if ec = ESR_ELx_EC_SMC32 ∨ ec = ESR_ELx_EC_SMC64 then none
      else if ec = ESR_ELx_EC_SYS64 then
        (hvf_handle_sys_reg env st.syndrome).map (fun e => (e, []))
      else if ec = ESR_ELx_EC_IABT_LOW ∨ ec = ESR_ELx_EC_DABT_LOW then
        hvf_handle_guest_abort env st.slots st.syndrome st.pa ec hooks.bus hooks.buf0
      else if ec = ESR_ELx_EC_SOFTSTP_LOW ∨ ec = ESR_ELx_EC_WATCHPT_LOW ∨
          ec = ESR_ELx_EC_BREAKPT_LOW ∨ ec = ESR_ELx_EC_BKPT32 ∨
          ec = ESR_ELx_EC_BRK64 then none
      else none
    match step with
    | none => none
    | some (env, t) =>
      let r := hvf_put_registers env st.hw
      some { st with env := r.1, hw := r.2, txs := st.txs ++ t }

/-- The exit switch at the bottom of hvf_vcpu_exec: CANCELED and
VTIMER_ACTIVATED leave register state alone (the vtimer case raises the
timer interrupt line, which lives outside this state); EXCEPTION runs the
handler and then sets hvf_vcpu_dirty = true; an unknown reason aborts. -/
def hvf_vcpu_exec_dispatch (hooks : ExtHooks) (st : VState) : Option VState :=
  match st.reason with
  | .canceled => some st
  | .exception => (hvf_handle_exception hooks st).map (fun s => { s with dirty := true })
  | .vtimerActivated => some st
  | .other => none

/-- The top of the hvf_vcpu_exec loop: if the vCPU is dirty, push the
registers and clear the flag (then interrupts are injected and
hv_vcpu_run is invoked). -/
def hvf_loop_top (st : VState) : VState :=
  if st.dirty then
    let r := hvf_put_registers st.env st.hw
    { st with env := r.1, hw := r.2, dirty := false }
  else st

/-- The vCPU state at the moment the run loop next reaches hv_vcpu_run,
starting from the state just after the previous hv_vcpu_run returned. -/
def stateAtNextRun (hooks : ExtHooks) (st : VState) : Option VState :=
  (hvf_vcpu_exec_dispatch hooks st).map hvf_loop_top


/-! ### Concrete states and operation sequences used in the scenario theorems -/

def regionSpanOps : List MemOp :=
  [MemOp.mapOp 0xA000 0x0 0x1000 7,
   MemOp.mapOp 0xB000 0x2000 0x1000 7,
   MemOp.regionAddOp 0x0 0x3000 0xC000]

def wrapMapOps : List MemOp := [MemOp.mapOp 0x9000 0xFFFFFFFFFFFFF000 0x1000 7]

/-- State after mapping hva 0xA000 at gpa 0 with size 0x1000 from the initial table. -/
def twoMapsSt1 : MemState :=
  (applyOp initState (MemOp.mapOp 0xA000 0x0 0x1000 7)).getD initState

/-- State after a second map of hva 0xB000 at gpa 0x2000 with size 0x1000:
two active slots. -/
def twoMapsSt : MemState :=
  (applyOp twoMapsSt1 (MemOp.mapOp 0xB000 0x2000 0x1000 7)).getD initState

def oneSlotSt : MemState :=
  { slots := [⟨0x1000, 0x1000, 0xA000⟩],
    macs := [⟨true, 0x1000, 0x1000, 0xA000⟩], log := [] }

def partialSlotSt : MemState :=
  { slots := [⟨0x2000, 0x1000, 0xA000⟩],
    macs := [⟨true, 0x1000, 0x2000, 0xA000⟩], log := [] }


def zeroEnv : Env :=
  { xregs := fun _ => 0, pc := 0, pstate := 0, sp_el0 := 0, sp_el1 := 0,
    elr_el1 := 0, spsr_el1 := 0, vregs := fun _ => 0, fpsr := 0, fpcr := 0,
    apda_hi := 0, apda_lo := 0, apdb_hi := 0, apdb_lo := 0, apga_hi := 0,
    apga_lo := 0, apia_hi := 0, apia_lo := 0, apib_hi := 0, apib_lo := 0,
    c14_cntkctl := 0, contextidr_el1 := 0, cpacr_el1 := 0, csselr_el1 := 0,
    esr_el1 := 0, far_el1 := 0, mair_el1 := 0, mdscr_el1 := 0, par_el1 := 0,
    sctlr_el1 := 0, tcr_el1 := 0, tpidrro_el0 := 0, tpidr_el0 := 0,
    tpidr_el1 := 0, ttbr0_el1 := 0, ttbr1_el1 := 0, vbar_el1 := 0 }

def zeroHw : Hw :=
  { xr := fun _ => 0, cpsr := 0, pc := 0, fpsr := 0, fpcr := 0, q := fun _ => 0,
    sp_el0 := 0, sp_el1 := 0, elr_el1 := 0, spsr_el1 := 0,
    apdakeyhi := 0, apdakeylo := 0, apdbkeyhi := 0, apdbkeylo := 0,
    apgakeyhi := 0, apgakeylo := 0, apiakeyhi := 0, apiakeylo := 0,
    apibkeyhi := 0, apibkeylo := 0, cntkctl := 0, contextidr := 0, cpacr := 0,
    csselr := 0, esr := 0, far := 0, mair := 0, mdscr := 0, par := 0,
    sctlr := 0, tcr := 0, tpidrro := 0, tpidr_el0 := 0, tpidr_el1 := 0,
    ttbr0 := 0, ttbr1 := 0, vbar := 0, cntv_cval := 0 }

def vregsIdxEnv : Env := { zeroEnv with vregs := fun i => i }

def mmioEnv : Env := { zeroEnv with pc := 0x4000 }

def idHooks : ExtHooks :=
  { psciMatch := fun _ => false, psciRun := fun e => e, bus := fun _ _ => 0, buf0 := 0 }

def wfeVState : VState :=
  { env := zeroEnv, hw := zeroHw, dirty := false, slots := [],
    reason := ExitReason.exception, syndrome := 0x04000000, pa := 0, txs := [] }


/-! ### Theorems -/


/-! ### Generic list lemmas -/

theorem getD_set_self {α : Type} (l : List α) (i : Nat) (v d : α) (h : i < l.length) :
    (l.set i v).getD i d = v := by
  rw [List.getD_eq_getElem _ _ (by simpa using h)]
  simp [List.getElem_set]

theorem getD_set_ne {α : Type} (l : List α) (i j : Nat) (v d : α) (hne : j ≠ i) :
    (l.set i v).getD j d = l.getD j d := by
  have h2 : i ≠ j := fun hh => hne hh.symm
  simp [List.getD_eq_getD_get?, List.get?_eq_getElem?, List.getElem?_set, h2]

theorem findFirstIdx_none_iff {α : Type} (p : α → Bool) (l : List α) (d : α) :
    findFirstIdx p l = none ↔ ∀ i, i < l.length → p (l.getD i d) = false := by
  induction l with
  | nil => simp [findFirstIdx]
  | cons a t ih =>
    by_cases hp : p a = true
    · constructor
      · intro h
        exact absurd h (by simp [findFirstIdx, hp])
      · intro h
        have h0 := h 0 (by simp)
        simp only [List.getD_cons_zero] at h0
        rw [h0] at hp; cases hp
    · rw [Bool.not_eq_true] at hp
      have hrw : findFirstIdx p (a :: t) = (findFirstIdx p t).map (· + 1) := by
        simp [findFirstIdx, hp]
      rw [hrw, Option.map_eq_none', ih]
      constructor
      · intro h i hi
        cases i with
        | zero => simpa using hp
        | succ k => simpa using h k (by simpa using hi)
      · intro h i hi
        simpa using h (i + 1) (by simpa using hi)

theorem findFirstIdx_some_spec {α : Type} (p : α → Bool) (l : List α) (d : α) (i : Nat)
    (h : findFirstIdx p l = some i) : i < l.length ∧ p (l.getD i d) = true := by
  induction l generalizing i with
  | nil => simp [findFirstIdx] at h
  | cons a t ih =>
    by_cases hp : p a = true
    · have hrw : findFirstIdx p (a :: t) = some 0 := by simp [findFirstIdx, hp]
      rw [hrw] at h
      simp only [Option.some.injEq] at h
      subst h
      exact ⟨by simp, by simpa using hp⟩
    · rw [Bool.not_eq_true] at hp
      have hrw : findFirstIdx p (a :: t) = (findFirstIdx p t).map (· + 1) := by
        simp [findFirstIdx, hp]
      rw [hrw, Option.map_eq_some'] at h
      obtain ⟨m, hm, hmi⟩ := h
      obtain ⟨hlt, hpr⟩ := ih m hm
      subst hmi
      exact ⟨by simpa using hlt, by simpa using hpr⟩

theorem findFirstIdx_unique {α : Type} (p : α → Bool) (l : List α) (d : α) (i : Nat)
    (hi : i < l.length) (hp : p (l.getD i d) = true)
    (hu : ∀ j, j < l.length → j ≠ i → p (l.getD j d) = false) :
    findFirstIdx p l = some i := by
  induction l generalizing i with
  | nil => simp at hi
  | cons a t ih =>
    cases i with
    | zero =>
      simp only [List.getD_cons_zero] at hp
      simp [findFirstIdx, hp]
    | succ k =>
      have ha : p a = false := by
        have := hu 0 (by simp) (by simp)
        simpa using this
      simp only [findFirstIdx, ha, if_false]
      have hk := ih k (by simpa using hi) (by simpa using hp)
        (fun j hj hne => by
          have := hu (j + 1) (by simpa using hj) (by simpa using hne)
          simpa using this)
      simp [hk]

theorem findFirstIdx_isSome_of_hit {α : Type} (p : α → Bool) (l : List α) (d : α) (i : Nat)
    (hi : i < l.length) (hp : p (l.getD i d) = true) :
    ∃ k, findFirstIdx p l = some k := by
  cases hf : findFirstIdx p l with
  | none =>
    have := (findFirstIdx_none_iff p l d).mp hf i hi
    rw [hp] at this; cases this
  | some k => exact ⟨k, rfl⟩

theorem countP_two_le {α : Type} (p : α → Bool) (l : List α) (d : α) (i j : Nat)
    (hi : i < l.length) (hj : j < l.length) (hne : i ≠ j)
    (hpi : p (l.getD i d) = true) (hpj : p (l.getD j d) = true) :
    2 ≤ l.countP p := by
  induction l generalizing i j with
  | nil => simp at hi
  | cons a t ih =>
    cases i with
    | zero =>
      cases j with
      | zero => exact absurd rfl hne
      | succ m =>
        simp only [List.getD_cons_zero] at hpi
        simp only [List.getD_cons_succ] at hpj
        have h1 : 0 < t.countP p := by
          rw [List.countP_pos_iff]
          exact ⟨t.getD m d, by
            rw [List.getD_eq_getElem _ _ (by simpa using hj)]
            exact ⟨List.getElem_mem _, by
              rw [← List.getD_eq_getElem _ d (by simpa using hj)]; exact hpj⟩⟩
        rw [List.countP_cons_of_pos _ _ hpi]
        omega
    | succ k =>
      cases j with
      | zero =>
        simp only [List.getD_cons_zero] at hpj
        simp only [List.getD_cons_succ] at hpi
        have h1 : 0 < t.countP p := by
          rw [List.countP_pos_iff]
          exact ⟨t.getD k d, by
            rw [List.getD_eq_getElem _ _ (by simpa using hi)]
            exact ⟨List.getElem_mem _, by
              rw [← List.getD_eq_getElem _ d (by simpa using hi)]; exact hpi⟩⟩
        rw [List.countP_cons_of_pos _ _ hpj]
        omega
      | succ m =>
        have := ih k m (by simpa using hi) (by simpa using hj)
          (by simpa using hne) (by simpa using hpi) (by simpa using hpj)
        have hc : t.countP p ≤ (a :: t).countP p := by
          rw [List.countP_cons]; omega
        omega



/-! ### Arithmetic characterization of the overlap test -/

theorem u64add_eq (a b : Nat) (h : a + b < U64) : u64add a b = a + b :=
  Nat.mod_eq_of_lt h

theorem slotHits_iff (gpa size : Nat) (s : HSlot) (h1 : gpa + size < U64)
    (h2 : s.size ≠ 0 → s.start + s.size < U64) :
    slotHits gpa (u64add gpa size) s = true ↔
      s.size ≠ 0 ∧ gpa < s.start + s.size ∧ s.start < gpa + size := by
  by_cases hz : s.size = 0
  · simp [slotHits, hz]
  · have e1 : u64add gpa size = gpa + size := u64add_eq _ _ h1
    have e2 : u64add s.start s.size = s.start + s.size := u64add_eq _ _ (h2 hz)
    simp only [slotHits, e1, e2, Bool.and_eq_true, bne_iff_ne, decide_eq_true_eq]
    constructor
    · rintro ⟨⟨hs, hlt⟩, hgt⟩
      exact ⟨hs, hlt, hgt⟩
    · rintro ⟨hs, hlt, hgt⟩
      exact ⟨⟨hs, hlt⟩, hgt⟩

/-! ### Structural lemmas about __hvf_set_memory_with_flags_locked -/

theorem setMem_slots (st : MemState) (idx flags : Nat) :
    (hvf_set_memory_with_flags_locked st idx flags).slots = st.slots := by
  simp only [hvf_set_memory_with_flags_locked]
  split <;> split <;> rfl

theorem setMem_macs_length (st : MemState) (idx flags : Nat) :
    (hvf_set_memory_with_flags_locked st idx flags).macs.length = st.macs.length := by
  simp only [hvf_set_memory_with_flags_locked]
  split <;> split <;> simp

theorem slotAt_set_self (l : List HSlot) (i : Nat) (v : HSlot) (h : i < l.length) :
    slotAt (l.set i v) i = v := getD_set_self _ _ _ _ h

theorem slotAt_set_ne (l : List HSlot) (i j : Nat) (v : HSlot) (h : j ≠ i) :
    slotAt (l.set i v) j = slotAt l j := getD_set_ne _ _ _ _ _ h

theorem macAt_set_self (l : List MSlot) (i : Nat) (v : MSlot) (h : i < l.length) :
    macAt (l.set i v) i = v := getD_set_self _ _ _ _ h

theorem macAt_set_ne (l : List MSlot) (i j : Nat) (v : MSlot) (h : j ≠ i) :
    macAt (l.set i v) j = macAt l j := getD_set_ne _ _ _ _ _ h

theorem setMem_macAt_ne (st : MemState) (idx flags j : Nat) (hne : j ≠ idx) :
    macAt (hvf_set_memory_with_flags_locked st idx flags).macs j = macAt st.macs j := by
  simp only [hvf_set_memory_with_flags_locked]
  by_cases hsz : (slotAt st.slots idx).size = 0
  · rw [if_pos hsz]
    split
    · exact macAt_set_ne _ _ _ _ hne
    · rfl
  · rw [if_neg hsz]
    dsimp only
    rw [macAt_set_ne _ _ _ _ hne]
    split
    · dsimp only
      exact macAt_set_ne _ _ _ _ hne
    · rfl

theorem setMem_macAt_self_active (st : MemState) (idx flags : Nat)
    (h : idx < st.macs.length) (hsz : (slotAt st.slots idx).size ≠ 0) :
    macAt (hvf_set_memory_with_flags_locked st idx flags).macs idx =
      ⟨true, (slotAt st.slots idx).size, (slotAt st.slots idx).start,
        (slotAt st.slots idx).mem⟩ := by
  simp only [hvf_set_memory_with_flags_locked]
  rw [if_neg hsz]
  split
  · exact macAt_set_self _ _ _ (by simpa using h)
  · exact macAt_set_self _ _ _ h

theorem setMem_macAt_self_free (st : MemState) (idx flags : Nat)
    (hsz : (slotAt st.slots idx).size = 0)
    (hmac : (macAt st.macs idx).present = true → (macAt st.macs idx).size ≠ 0) :
    (macAt (hvf_set_memory_with_flags_locked st idx flags).macs idx).present = false := by
  simp only [hvf_set_memory_with_flags_locked]
  rw [if_pos hsz]
  by_cases hpres : (macAt st.macs idx).present = true
  · have hc : ((macAt st.macs idx).present &&
        ((macAt st.macs idx).size != (slotAt st.slots idx).size)) = true := by
      rw [hpres, hsz]
      simp [bne_iff_ne]
      exact hmac hpres
    rw [if_pos hc]
    dsimp only
    by_cases hidx : idx < st.macs.length
    · rw [macAt_set_self _ _ _ hidx]
    · rw [macAt, List.getD_eq_default]
      simpa using (by omega : st.macs.length ≤ idx)
  · have hc : ¬(((macAt st.macs idx).present &&
        ((macAt st.macs idx).size != (slotAt st.slots idx).size)) = true) := by
      rw [Bool.not_eq_true] at hpres
      rw [hpres]
      simp
    rw [if_neg hc]
    rw [Bool.not_eq_true] at hpres
    exact hpres



/-! ### Invariant preservation building blocks -/

theorem Inv_mac_present_size (st : MemState) (hInv : Inv st) (j : Nat) :
    (macAt st.macs j).present = true → (macAt st.macs j).size ≠ 0 := by
  obtain ⟨hlen, _, _, hmir⟩ := hInv
  intro hp
  by_cases hj : j < st.slots.length
  · have hm := hmir j hj
    split at hm
    · rename_i hsz
      rw [hm]
      exact hsz
    · rename_i hsz
      rw [hm] at hp
      cases hp
  · have hge : st.macs.length ≤ j := by omega
    rw [macAt, List.getD_eq_default _ _ hge] at hp
    cases hp

theorem Inv_free (st : MemState) (hInv : Inv st) (i fl : Nat) (hi : i < st.slots.length) :
    Inv (hvf_set_memory_with_flags_locked
      { st with slots := st.slots.set i { slotAt st.slots i with size := 0 } } i fl) := by
  have hInv0 := hInv
  obtain ⟨hlen, hbnd, hdis, hmir⟩ := hInv
  set st1 : MemState :=
    { st with slots := st.slots.set i { slotAt st.slots i with size := 0 } } with hst1
  set X := hvf_set_memory_with_flags_locked st1 i fl with hX
  have hslots : X.slots = st.slots.set i { slotAt st.slots i with size := 0 } := by
    rw [hX, setMem_slots]
  have hlen1 : X.slots.length = st.slots.length := by rw [hslots]; simp
  have hmlen : X.macs.length = st.macs.length := by rw [hX, setMem_macs_length]
  have hsAt : ∀ j, slotAt X.slots j =
      if j = i then { slotAt st.slots i with size := 0 } else slotAt st.slots j := by
    intro j
    rw [hslots]
    by_cases hj : j = i
    · subst hj; rw [if_pos rfl]; exact slotAt_set_self _ _ _ hi
    · rw [if_neg hj]; exact slotAt_set_ne _ _ _ _ hj
  have hst1slot : slotAt st1.slots i = { slotAt st.slots i with size := 0 } :=
    slotAt_set_self _ _ _ hi
  have hmAt_ne : ∀ j, j ≠ i → macAt X.macs j = macAt st.macs j := by
    intro j hj
    rw [hX, setMem_macAt_ne _ _ _ _ hj]
  refine ⟨?_, ?_, ?_, ?_⟩
  · rw [hlen1, hmlen]; exact hlen
  · intro j hj hsz
    rw [hsAt] at hsz ⊢
    by_cases hji : j = i
    · rw [if_pos hji] at hsz
      exact absurd rfl hsz
    · rw [if_neg hji] at hsz ⊢
      exact hbnd j (by omega) hsz
  · intro j hj k hk hjk
    rw [hsAt, hsAt]
    by_cases hji : j = i
    · rw [if_pos hji]
      intro h1 _
      exact absurd rfl h1
    · by_cases hki : k = i
      · rw [if_pos hki, if_neg hji]
        intro _ h2
        exact absurd rfl h2
      · rw [if_neg hji, if_neg hki]
        exact hdis j (by omega) k (by omega) hjk
  · intro j hj
    rw [hsAt]
    by_cases hji : j = i
    · rw [if_pos hji]
      have hzz : ¬(({ slotAt st.slots i with size := 0 } : HSlot).size ≠ 0) := by simp
      rw [if_neg hzz, hji]
      rw [hX]
      apply setMem_macAt_self_free
      · rw [hst1slot]
      · exact Inv_mac_present_size st hInv0 i
    · rw [if_neg hji]
      rw [hmAt_ne j hji]
      have := hmir j (by omega)
      exact this

theorem Inv_insert (st : MemState) (hInv : Inv st) (j gpa size hva fl : Nat)
    (hj : j < st.slots.length)
    (hnw : size ≠ 0 → gpa + size < U64)
    (hdisj : ∀ k, k < st.slots.length → k ≠ j → (slotAt st.slots k).size ≠ 0 → size ≠ 0 →
       gpa + size ≤ (slotAt st.slots k).start ∨
       (slotAt st.slots k).start + (slotAt st.slots k).size ≤ gpa) :
    Inv (hvf_set_memory_with_flags_locked
      { st with slots := st.slots.set j ⟨gpa, size, hva⟩ } j fl) := by
  have hInv0 := hInv
  obtain ⟨hlen, hbnd, hdis, hmir⟩ := hInv
  set st1 : MemState := { st with slots := st.slots.set j ⟨gpa, size, hva⟩ } with hst1
  set X := hvf_set_memory_with_flags_locked st1 j fl with hX
  have hslots : X.slots = st.slots.set j ⟨gpa, size, hva⟩ := by
    rw [hX, setMem_slots]
  have hlen1 : X.slots.length = st.slots.length := by rw [hslots]; simp
  have hmlen : X.macs.length = st.macs.length := by rw [hX, setMem_macs_length]
  have hsAt : ∀ k, slotAt X.slots k =
      if k = j then ⟨gpa, size, hva⟩ else slotAt st.slots k := by
    intro k
    rw [hslots]
    by_cases hk : k = j
    · subst hk; rw [if_pos rfl]; exact slotAt_set_self _ _ _ hj
    · rw [if_neg hk]; exact slotAt_set_ne _ _ _ _ hk
  have hst1slot : slotAt st1.slots j = ⟨gpa, size, hva⟩ := slotAt_set_self _ _ _ hj
  have hmAt_ne : ∀ k, k ≠ j → macAt X.macs k = macAt st.macs k := by
    intro k hk
    rw [hX, setMem_macAt_ne _ _ _ _ hk]
  refine ⟨?_, ?_, ?_, ?_⟩
  · rw [hlen1, hmlen]; exact hlen
  · intro k hk hsz
    rw [hsAt] at hsz ⊢
    by_cases hkj : k = j
    · rw [if_pos hkj] at hsz ⊢
      dsimp only at hsz ⊢
      exact hnw hsz
    · rw [if_neg hkj] at hsz ⊢
      exact hbnd k (by omega) hsz
  · intro k hk m hm hkm
    rw [hsAt, hsAt]
    by_cases hkj : k = j
    · subst hkj
      rw [if_pos rfl, if_neg (by omega : ¬(m = k))]
      intro h1 h2
      dsimp only at h1 ⊢
      rcases hdisj m (by omega) (by omega) h2 h1 with hc | hc <;> omega
    · by_cases hmj : m = j
      · subst hmj
        rw [if_pos rfl, if_neg hkj]
        intro h1 h2
        dsimp only at h2 ⊢
        rcases hdisj k (by omega) hkj h1 h2 with hc | hc <;> omega
      · rw [if_neg hkj, if_neg hmj]
        exact hdis k (by omega) m (by omega) hkm
  · intro k hk
    rw [hsAt]
    by_cases hkj : k = j
    · rw [if_pos hkj, hkj]
      by_cases hsz : size ≠ 0
      · rw [if_pos (by exact hsz)]
        rw [hX]
        have := setMem_macAt_self_active st1 j fl
          (by rw [hst1] ; dsimp only ; omega) (by rw [hst1slot]; exact hsz)
        rw [this, hst1slot]
      · rw [if_neg hsz]
        rw [hX]
        apply setMem_macAt_self_free
        · rw [hst1slot]; simpa using hsz
        · exact Inv_mac_present_size st hInv0 j
    · rw [if_neg hkj]
      rw [hmAt_ne k hkj]
      exact hmir k (by omega)



theorem nextFree_lt (l : List HSlot) (j : Nat) (h : hvf_next_free_slot l = some j) :
    j < l.length := by
  unfold hvf_next_free_slot at h
  cases hf : findFirstIdx (fun s => s.size == 0) l with
  | some i =>
    rw [hf] at h
    simp only [Option.some.injEq] at h
    subst h
    exact (findFirstIdx_some_spec _ _ ⟨0, 0, 0⟩ _ hf).1
  | none =>
    rw [hf] at h
    by_cases hl : l.length = 0
    · rw [if_pos hl] at h; cases h
    · rw [if_neg hl] at h
      simp only [Option.some.injEq] at h
      omega

theorem nextFree_free (l : List HSlot) (j : Nat) (h : hvf_next_free_slot l = some j)
    (hex : ∃ k, k < l.length ∧ (slotAt l k).size = 0) :
    (slotAt l j).size = 0 := by
  obtain ⟨k, hk, hkz⟩ := hex
  have hhit : (fun s => s.size == 0) (l.getD k ⟨0, 0, 0⟩) = true := by
    have h0 : (l.getD k (⟨0, 0, 0⟩ : HSlot)).size = 0 := hkz
    show ((l.getD k (⟨0, 0, 0⟩ : HSlot)).size == 0) = true
    rw [h0]
    rfl
  obtain ⟨m, hm⟩ :=
    findFirstIdx_isSome_of_hit (fun s => s.size == 0) l ⟨0, 0, 0⟩ k hk hhit
  unfold hvf_next_free_slot at h
  rw [hm] at h
  simp only [Option.some.injEq] at h
  subst h
  have := (findFirstIdx_some_spec _ _ (⟨0, 0, 0⟩ : HSlot) _ hm).2
  simpa [slotAt] using this

theorem hits_active (a b : Nat) (s : HSlot) (h : slotHits a b s = true) : s.size ≠ 0 := by
  simp only [slotHits, Bool.and_eq_true, bne_iff_ne] at h
  exact h.1.1

theorem not_hits_disjoint (gpa size : Nat) (s : HSlot) (hwf : gpa + size < U64)
    (hb : s.size ≠ 0 → s.start + s.size < U64)
    (hf : slotHits gpa (u64add gpa size) s = false) (hact : s.size ≠ 0) :
    gpa + size ≤ s.start ∨ s.start + s.size ≤ gpa := by
  have hiff := slotHits_iff gpa size s hwf hb
  have hnp : ¬(s.size ≠ 0 ∧ gpa < s.start + s.size ∧ s.start < gpa + size) := by
    rw [← hiff, hf]
    simp
  by_cases hlt : gpa < s.start + s.size
  · by_cases hgt : s.start < gpa + size
    · exact absurd ⟨hact, hlt, hgt⟩ hnp
    · exact Or.inl (by omega)
  · exact Or.inr (by omega)

theorem overlapCount_eq_countP (slots : List HSlot) (start end_ : Nat) :
    overlapCount slots start end_ = slots.countP (slotHits start end_) := by
  rw [overlapCount, ← List.countP_eq_length_filter]

/-- Invariant preservation by hvf_map_safe. -/
theorem Inv_hvf_map_safe (st st2 : MemState) (r hva gpa size flags : Nat)
    (hInv : Inv st) (hwf : gpa + size < U64)
    (h : hvf_map_safe st hva gpa size flags = some (st2, r)) : Inv st2 := by
  have hInv0 := hInv
  obtain ⟨hlen, hbnd, hdis, hmir⟩ := hInv
  simp only [hvf_map_safe] at h
  cases hfind : hvf_find_overlap_slot st.slots gpa (u64add gpa size) with
  | none =>
    rw [hfind] at h
    dsimp only at h
    cases hnf : hvf_next_free_slot st.slots with
    | none => rw [hnf] at h; cases h
    | some j =>
      rw [hnf] at h
      dsimp only at h
      by_cases hfree : (slotAt st.slots j).size ≠ 0
      · rw [if_pos hfree] at h; cases h
      · rw [if_neg hfree] at h
        simp only [Option.some.injEq, Prod.mk.injEq] at h
        obtain ⟨hst2, _⟩ := h
        subst hst2
        apply Inv_insert st hInv0 j gpa size hva flags (nextFree_lt _ _ hnf)
          (fun _ => hwf)
        intro k hk hkj hkact _
        have hnone := (findFirstIdx_none_iff _ _ ⟨0, 0, 0⟩).mp hfind k hk
        exact not_hits_disjoint gpa size _ hwf (fun hz => hbnd k hk hz) hnone hkact
  | some i =>
    rw [hfind] at h
    dsimp only at h
    have hspec := findFirstIdx_some_spec _ _ (⟨0, 0, 0⟩ : HSlot) _ hfind
    have hi : i < st.slots.length := hspec.1
    have hhits : slotHits gpa (u64add gpa size) (slotAt st.slots i) = true := hspec.2
    by_cases h1 : (slotAt st.slots i).mem = hva ∧ (slotAt st.slots i).start = gpa ∧
        (slotAt st.slots i).size = size
    · rw [if_pos h1] at h
      simp only [Option.some.injEq, Prod.mk.injEq] at h
      obtain ⟨hst2, _⟩ := h
      subst hst2
      exact hInv0
    · rw [if_neg h1] at h
      by_cases h2 : (slotAt st.slots i).start = gpa ∧ (slotAt st.slots i).size = size
      · rw [if_pos h2] at h
        set stf := hvf_set_memory_with_flags_locked
          { st with slots := st.slots.set i { slotAt st.slots i with size := 0 } } i 0 with hstf
        have hInvf : Inv stf := Inv_free st hInv0 i 0 hi
        have hfslots : stf.slots = st.slots.set i { slotAt st.slots i with size := 0 } := by
          rw [hstf, setMem_slots]
        have hflen : stf.slots.length = st.slots.length := by rw [hfslots]; simp
        cases hnf : hvf_next_free_slot stf.slots with
        | none => rw [hnf] at h; cases h
        | some j =>
          rw [hnf] at h
          dsimp only at h
          by_cases hfree : (slotAt stf.slots j).size ≠ 0
          · rw [if_pos hfree] at h; cases h
          · rw [if_neg hfree] at h
            simp only [Option.some.injEq, Prod.mk.injEq] at h
            obtain ⟨hst2, _⟩ := h
            subst hst2
            apply Inv_insert stf hInvf j gpa size hva flags (nextFree_lt _ _ hnf)
              (fun _ => hwf)
            intro k hk hkj hkact _
            by_cases hki : k = i
            · subst hki
              rw [hfslots, slotAt_set_self _ _ _ hi] at hkact
              exact absurd rfl hkact
            · rw [hfslots, slotAt_set_ne _ _ _ _ hki] at hkact ⊢
              rw [hflen] at hk
              have hiact : (slotAt st.slots i).size ≠ 0 := hits_active _ _ _ hhits
              have hd := hdis i hi k hk (fun hh => hki hh.symm) hiact hkact
              rw [h2.1, h2.2] at hd
              exact hd
      · rw [if_neg h2] at h
        cases h



/-- Invariant preservation by hvf_unmap_safe. -/
theorem Inv_hvf_unmap_safe (st st2 : MemState) (r gpa size : Nat) (hInv : Inv st)
    (h : hvf_unmap_safe st gpa size = some (st2, r)) : Inv st2 := by
  simp only [hvf_unmap_safe] at h
  cases hfind : hvf_find_overlap_slot st.slots gpa (u64add gpa size) with
  | none =>
    rw [hfind] at h
    simp only [Option.some.injEq, Prod.mk.injEq] at h
    obtain ⟨hst2, _⟩ := h
    subst hst2
    exact hInv
  | some i =>
    rw [hfind] at h
    dsimp only at h
    have hi : i < st.slots.length := (findFirstIdx_some_spec _ _ (⟨0, 0, 0⟩ : HSlot) _ hfind).1
    by_cases hc : (slotAt st.slots i).start ≠ gpa ∨ (slotAt st.slots i).size ≠ size
    · rw [if_pos hc] at h; cases h
    · rw [if_neg hc] at h
      simp only [Option.some.injEq, Prod.mk.injEq] at h
      obtain ⟨hst2, _⟩ := h
      subst hst2
      exact Inv_free st hInv i 0 hi

/-- Invariant preservation by hvf_set_phys_mem.  The overlap-count bound is
needed only when a new slot is created (add = true). -/
theorem Inv_hvf_set_phys_mem (st st2 : MemState) (gpa size hva : Nat)
    (add is_ram user_backed : Bool) (hInv : Inv st) (hwf : gpa + size < U64)
    (hcount : add = true → overlapCount st.slots gpa (u64add gpa size) ≤ 1)
    (h : hvf_set_phys_mem st gpa size hva add is_ram user_backed = some st2) : Inv st2 := by
  have hInv0 := hInv
  obtain ⟨hlen, hbnd, hdis, hmir⟩ := hInv
  simp only [hvf_set_phys_mem] at h
  by_cases hram : is_ram = true
  · by_cases huser : user_backed = true
    · rw [if_neg (by simp [hram]), if_pos huser] at h
      simp only [Option.some.injEq] at h
      subst h
      exact hInv0
    · rw [if_neg (by simp [hram]), if_neg huser] at h
      cases hfind : hvf_find_overlap_slot st.slots gpa (u64add gpa size) with
      | none =>
        rw [hfind] at h
        dsimp only at h
        by_cases hadd : add = true
        · rw [if_neg (by simp [hadd])] at h
          cases hnf : hvf_next_free_slot st.slots with
          | none => rw [hnf] at h; cases h
          | some j =>
            rw [hnf] at h
            dsimp only at h
            simp only [Option.some.injEq] at h
            subst h
            apply Inv_insert st hInv0 j gpa size hva HV_MEMORY_RWX (nextFree_lt _ _ hnf)
              (fun _ => hwf)
            intro k hk hkj hkact _
            have hnone := (findFirstIdx_none_iff _ _ ⟨0, 0, 0⟩).mp hfind k hk
            exact not_hits_disjoint gpa size _ hwf (fun hz => hbnd k hk hz) hnone hkact
        · rw [Bool.not_eq_true] at hadd
          rw [if_pos (by simp [hadd])] at h
          simp only [Option.some.injEq] at h
          subst h
          exact hInv0
      | some i =>
        rw [hfind] at h
        dsimp only at h
        have hspec := findFirstIdx_some_spec _ _ (⟨0, 0, 0⟩ : HSlot) _ hfind
        have hi : i < st.slots.length := hspec.1
        have hhits : slotHits gpa (u64add gpa size) (slotAt st.slots i) = true := hspec.2
        by_cases h1 : add = true ∧ (slotAt st.slots i).size = size ∧
            (slotAt st.slots i).start = gpa ∧ (slotAt st.slots i).mem = hva
        · rw [if_pos h1] at h
          simp only [Option.some.injEq] at h
          subst h
          exact hInv0
        · rw [if_neg h1] at h
          set stf := hvf_set_memory_with_flags_locked
            { st with slots := st.slots.set i { slotAt st.slots i with size := 0 } }
            i HV_MEMORY_RWX with hstf
          have hInvf : Inv stf := Inv_free st hInv0 i HV_MEMORY_RWX hi
          have hfslots : stf.slots = st.slots.set i { slotAt st.slots i with size := 0 } := by
            rw [hstf, setMem_slots]
          have hflen : stf.slots.length = st.slots.length := by rw [hfslots]; simp
          by_cases hadd : add = true
          · rw [if_neg (by simp [hadd])] at h
            cases hnf : hvf_next_free_slot stf.slots with
            | none => rw [hnf] at h; cases h
            | some j =>
              rw [hnf] at h
              dsimp only at h
              simp only [Option.some.injEq] at h
              subst h
              apply Inv_insert stf hInvf j gpa size hva HV_MEMORY_RWX (nextFree_lt _ _ hnf)
                (fun _ => hwf)
              intro k hk hkj hkact _
              by_cases hki : k = i
              · subst hki
                rw [hfslots, slotAt_set_self _ _ _ hi] at hkact
                exact absurd rfl hkact
              · rw [hfslots, slotAt_set_ne _ _ _ _ hki] at hkact ⊢
                rw [hflen] at hk
                have hkf : slotHits gpa (u64add gpa size) (slotAt st.slots k) = false := by
                  by_cases hkh : slotHits gpa (u64add gpa size) (slotAt st.slots k) = true
                  · exfalso
                    have h2 := countP_two_le (slotHits gpa (u64add gpa size)) st.slots
                      ⟨0, 0, 0⟩ i k hi hk (fun hh => hki hh.symm) hhits hkh
                    have hcnt := hcount hadd
                    rw [overlapCount_eq_countP] at hcnt
                    omega
                  · rw [Bool.not_eq_true] at hkh
                    exact hkh
                exact not_hits_disjoint gpa size _ hwf (fun hz => hbnd k hk hz) hkf hkact
          · rw [Bool.not_eq_true] at hadd
            rw [if_pos (by simp [hadd])] at h
            simp only [Option.some.injEq] at h
            subst h
            exact hInvf
  · rw [Bool.not_eq_true] at hram
    rw [if_pos (by simp [hram])] at h
    simp only [Option.some.injEq] at h
    subst h
    exact hInv0

/-- Invariant preservation by any single operation. -/
theorem Inv_applyOp (st st2 : MemState) (op : MemOp) (hInv : Inv st) (hwf : op.wf)
    (hadd : ∀ gpa size hva, op = .regionAddOp gpa size hva →
      overlapCount st.slots gpa (u64add gpa size) ≤ 1)
    (h : applyOp st op = some st2) : Inv st2 := by
  cases op with
  | mapOp hva gpa size flags =>
    simp only [applyOp, Option.map_eq_some'] at h
    obtain ⟨⟨s2, r⟩, hm, hfst⟩ := h
    dsimp only at hfst
    subst hfst
    exact Inv_hvf_map_safe st s2 r hva gpa size flags hInv hwf hm
  | unmapOp gpa size =>
    simp only [applyOp, Option.map_eq_some'] at h
    obtain ⟨⟨s2, r⟩, hm, hfst⟩ := h
    dsimp only at hfst
    subst hfst
    exact Inv_hvf_unmap_safe st s2 r gpa size hInv hm
  | regionAddOp gpa size hva =>
    simp only [applyOp] at h
    exact Inv_hvf_set_phys_mem st st2 gpa size hva true true false hInv hwf
      (fun _ => hadd gpa size hva rfl) h
  | regionDelOp gpa size hva =>
    simp only [applyOp] at h
    exact Inv_hvf_set_phys_mem st st2 gpa size hva false true false hInv hwf
      (fun hc => nomatch hc) h

theorem slotAt_initState (i : Nat) : slotAt initState.slots i = ⟨0, 0, 0⟩ := by
  rw [slotAt]
  by_cases hi : i < HVF_MAX_SLOTS
  · rw [List.getD_eq_getElem _ _ (by simpa [initState] using hi)]
    simp [initState]
  · rw [List.getD_eq_default]
    simpa [initState] using (by omega : HVF_MAX_SLOTS ≤ i)

theorem macAt_initState (i : Nat) : macAt initState.macs i = ⟨false, 0, 0, 0⟩ := by
  rw [macAt]
  by_cases hi : i < HVF_MAX_SLOTS
  · rw [List.getD_eq_getElem _ _ (by simpa [initState] using hi)]
    simp [initState]
  · rw [List.getD_eq_default]
    simpa [initState] using (by omega : HVF_MAX_SLOTS ≤ i)

theorem Inv_initState : Inv initState := by
  refine ⟨by simp [initState], ?_, ?_, ?_⟩
  · intro i hi hsz
    rw [slotAt_initState] at hsz
    exact absurd rfl hsz
  · intro i hi j hj hij
    rw [slotAt_initState]
    intro h1 _
    exact absurd rfl h1
  · intro i hi
    rw [slotAt_initState, macAt_initState]
    rw [if_neg (by simp)]

/-- Every reachable state satisfies the invariant. -/
theorem ReachesA_Inv (st : MemState) (h : ReachesA st) : Inv st := by
  induction h with
  | init => exact Inv_initState
  | step st st2 op hr hwf hadd happ ih => exact Inv_applyOp st st2 op ih hwf hadd happ



theorem nextFree_none (l : List HSlot) (h : hvf_next_free_slot l = none) : l.length = 0 := by
  unfold hvf_next_free_slot at h
  cases hf : findFirstIdx (fun s => s.size == 0) l with
  | some i => rw [hf] at h; cases h
  | none =>
    rw [hf] at h
    by_cases hl : l.length = 0
    · exact hl
    · rw [if_neg hl] at h; cases h

theorem setMem_free_state (sl : List HSlot) (mc : List MSlot) (lg : List HwCall)
    (i fl : Nat) (hi : i < sl.length) (mac : MSlot) (hmac : macAt mc i = mac)
    (hpres : mac.present = true) (hmsz : mac.size ≠ 0) :
    hvf_set_memory_with_flags_locked
      { slots := sl.set i ⟨(slotAt sl i).start, 0, (slotAt sl i).mem⟩,
        macs := mc, log := lg } i fl =
    { slots := sl.set i ⟨(slotAt sl i).start, 0, (slotAt sl i).mem⟩,
      macs := mc.set i ⟨false, mac.size, mac.gpa_start, mac.hva⟩,
      log := lg ++ [HwCall.unmap mac.gpa_start mac.size] } := by
  simp only [hvf_set_memory_with_flags_locked]
  have hsl : slotAt (sl.set i (⟨(slotAt sl i).start, 0, (slotAt sl i).mem⟩ : HSlot)) i =
      ⟨(slotAt sl i).start, 0, (slotAt sl i).mem⟩ := slotAt_set_self _ _ _ hi
  rw [hsl, hmac]
  rw [if_pos (show ((⟨(slotAt sl i).start, 0, (slotAt sl i).mem⟩ :
    HSlot)).size = 0 from rfl)]
  have hcond : (mac.present && (mac.size !=
      ((⟨(slotAt sl i).start, 0, (slotAt sl i).mem⟩ : HSlot)).size)) = true := by
    rw [hpres]
    simp [bne_iff_ne]
    exact hmsz
  rw [if_pos hcond]

theorem setMem_claim_state (sl : List HSlot) (mc : List MSlot) (lg : List HwCall)
    (j gpa size hva fl : Nat) (hj : j < sl.length)
    (hpres : (macAt mc j).present = false) (hsz : size ≠ 0) :
    hvf_set_memory_with_flags_locked
      { slots := sl.set j ⟨gpa, size, hva⟩, macs := mc, log := lg } j fl =
    { slots := sl.set j ⟨gpa, size, hva⟩,
      macs := mc.set j ⟨true, size, gpa, hva⟩,
      log := lg ++ [HwCall.map hva gpa size fl] } := by
  simp only [hvf_set_memory_with_flags_locked]
  have hsl : slotAt (sl.set j (⟨gpa, size, hva⟩ : HSlot)) j =
      ⟨gpa, size, hva⟩ := slotAt_set_self _ _ _ hj
  rw [hsl]
  rw [if_neg (show ¬(((⟨gpa, size, hva⟩ : HSlot)).size = 0) from hsz)]
  have hcond : ¬((((macAt mc j)).present &&
      (((macAt mc j)).size != ((⟨gpa, size, hva⟩ : HSlot)).size)) = true) := by
    rw [hpres]
    simp
  rw [if_neg hcond]



theorem find_exact_slot (st : MemState) (hInv : Inv st) (i gpa size : Nat)
    (hi : i < st.slots.length) (hstart : (slotAt st.slots i).start = gpa)
    (hsize : (slotAt st.slots i).size = size) (hsz : size ≠ 0) :
    hvf_find_overlap_slot st.slots gpa (u64add gpa size) = some i := by
  obtain ⟨hlen, hbnd, hdis, hmir⟩ := hInv
  have hbi : gpa + size < U64 := by
    have := hbnd i hi (by rw [hsize]; exact hsz)
    rw [hstart, hsize] at this
    exact this
  show findFirstIdx (slotHits gpa (u64add gpa size)) st.slots = some i
  apply findFirstIdx_unique _ _ ⟨0, 0, 0⟩ i hi
  · exact (slotHits_iff gpa size _ hbi (fun hz => hbnd i hi hz)).mpr
      ⟨by rw [hsize]; exact hsz, by rw [hstart, hsize]; omega, by rw [hstart]; omega⟩
  · intro j hj hne
    by_cases hjh : slotHits gpa (u64add gpa size) (st.slots.getD j ⟨0, 0, 0⟩) = true
    · exfalso
      have hj3 := (slotHits_iff gpa size _ hbi (fun hz => hbnd j hj hz)).mp hjh
      have hd := hdis i hi j hj (fun hh => hne hh.symm) (by rw [hsize]; exact hsz) hj3.1
      rw [hstart, hsize] at hd
      rcases hj3 with ⟨-, h2, h3⟩
      rcases hd with hc | hc <;> omega
    · rw [Bool.not_eq_true] at hjh
      exact hjh

/-- C5: mapping an identical (gpa, size, host_ptr) triple over an existing
active slot is a successful no-op: the state (slot table, mirror slots and
hardware-call log) is returned unchanged with HV_SUCCESS and no hardware
map or unmap call is issued. -/
theorem c5_map_exact_noop (st : MemState) (hInv : Inv st) (i gpa size hva flags : Nat)
    (hi : i < st.slots.length) (hslot : slotAt st.slots i = ⟨gpa, size, hva⟩)
    (hsz : size ≠ 0) :
    hvf_map_safe st hva gpa size flags = some (st, HV_SUCCESS) := by
  have hfind := find_exact_slot st hInv i gpa size hi (by rw [hslot]) (by rw [hslot]) hsz
  simp only [hvf_map_safe]
  rw [hfind]
  dsimp only
  rw [if_pos ⟨by rw [hslot], by rw [hslot], by rw [hslot]⟩]

/-- C6: remapping an exact (gpa, size) range with a different host pointer
issues exactly one hv_vm_unmap followed by exactly one hv_vm_map, and
afterwards some slot holds the new mapping with its mirror slot present and
recording the new host pointer. -/
theorem c6_remap_one_unmap_one_map (st : MemState) (hInv : Inv st)
    (i gpa size hva1 hva2 flags : Nat) (hi : i < st.slots.length)
    (hslot : slotAt st.slots i = ⟨gpa, size, hva1⟩) (hsz : size ≠ 0) (hhva : hva2 ≠ hva1) :
    ∃ st2 j, hvf_map_safe st hva2 gpa size flags = some (st2, 0) ∧
      st2.log = st.log ++ [HwCall.unmap gpa size, HwCall.map hva2 gpa size flags] ∧
      j < st2.slots.length ∧ slotAt st2.slots j = ⟨gpa, size, hva2⟩ ∧
      macAt st2.macs j = ⟨true, size, gpa, hva2⟩ := by
  have hInv0 := hInv
  obtain ⟨hlen, hbnd, hdis, hmir⟩ := hInv
  have hfind := find_exact_slot st hInv0 i gpa size hi (by rw [hslot]) (by rw [hslot]) hsz
  have hmaci : macAt st.macs i = ⟨true, size, gpa, hva1⟩ := by
    have hm := hmir i hi
    rw [if_pos (by rw [hslot]; exact hsz)] at hm
    rw [hm, hslot]
  have hfree1 := setMem_free_state st.slots st.macs st.log i 0 hi
    ⟨true, size, gpa, hva1⟩ hmaci rfl hsz
  have hS1len : (st.slots.set i
      (⟨(slotAt st.slots i).start, 0, (slotAt st.slots i).mem⟩ : HSlot)).length =
      st.slots.length := by simp
  have hfreei : slotAt (st.slots.set i
        (⟨(slotAt st.slots i).start, 0, (slotAt st.slots i).mem⟩ : HSlot)) i =
      ⟨(slotAt st.slots i).start, 0, (slotAt st.slots i).mem⟩ := slotAt_set_self _ _ _ hi
  cases hnf : hvf_next_free_slot (st.slots.set i
      (⟨(slotAt st.slots i).start, 0, (slotAt st.slots i).mem⟩ : HSlot)) with
  | none =>
    exfalso
    have := nextFree_none _ hnf
    omega
  | some j =>
    have hjlt : j < st.slots.length := by
      have := nextFree_lt _ _ hnf
      omega
    have hjfree : (slotAt (st.slots.set i
        (⟨(slotAt st.slots i).start, 0, (slotAt st.slots i).mem⟩ : HSlot)) j).size = 0 := by
      apply nextFree_free _ _ hnf
      exact ⟨i, by omega, by rw [hfreei]⟩
    have hpresj : (macAt (st.macs.set i
        (⟨false, size, gpa, hva1⟩ : MSlot)) j).present = false := by
      by_cases hji : j = i
      · subst hji
        rw [macAt_set_self _ _ _ (by omega)]
      · rw [macAt_set_ne _ _ _ _ hji]
        have hm := hmir j hjlt
        have hsj : (slotAt st.slots j).size = 0 := by
          rw [slotAt_set_ne _ _ _ _ hji] at hjfree
          exact hjfree
        rw [if_neg (by rw [hsj]; simp)] at hm
        exact hm
    have hclaim := setMem_claim_state
      (st.slots.set i ⟨(slotAt st.slots i).start, 0, (slotAt st.slots i).mem⟩)
      (st.macs.set i ⟨false, size, gpa, hva1⟩)
      (st.log ++ [HwCall.unmap gpa size])
      j gpa size hva2 flags (by omega) hpresj hsz
    refine ⟨⟨(st.slots.set i
        ⟨(slotAt st.slots i).start, 0, (slotAt st.slots i).mem⟩).set j ⟨gpa, size, hva2⟩,
      (st.macs.set i ⟨false, size, gpa, hva1⟩).set j ⟨true, size, gpa, hva2⟩,
      (st.log ++ [HwCall.unmap gpa size]) ++ [HwCall.map hva2 gpa size flags]⟩,
      j, ?_, ?_, ?_, ?_, ?_⟩
    · simp only [hvf_map_safe]
      rw [hfind]
      dsimp only
      rw [if_neg (by rw [hslot]; rintro ⟨h1, -, -⟩; exact hhva h1.symm)]
      rw [if_pos ⟨by rw [hslot], by rw [hslot]⟩]
      rw [hfree1]
      dsimp only
      rw [hnf]
      dsimp only
      rw [if_neg (by rw [hjfree]; simp)]
      rw [hclaim]
    · dsimp only
      simp
    · dsimp only
      simpa using hjlt
    · dsimp only
      exact slotAt_set_self _ _ _ (by simpa using hjlt)
    · dsimp only
      exact macAt_set_self _ _ _ (by simp; omega)

/-- C7: a map request partially overlapping an existing active slot
(overlapping but not range-identical) terminates the process
(modelled as none): no new state and no hardware call is ever produced. -/
theorem c7_partial_overlap_fatal (st : MemState) (hInv : Inv st)
    (i gpa size hva flags : Nat) (hi : i < st.slots.length)
    (hact : (slotAt st.slots i).size ≠ 0) (hwf : gpa + size < U64)
    (hov1 : gpa < (slotAt st.slots i).start + (slotAt st.slots i).size)
    (hov2 : (slotAt st.slots i).start < gpa + size)
    (hne : ¬((slotAt st.slots i).start = gpa ∧ (slotAt st.slots i).size = size)) :
    hvf_map_safe st hva gpa size flags = none := by
  have hInv0 := hInv
  obtain ⟨hlen, hbnd, hdis, hmir⟩ := hInv
  have hhi : slotHits gpa (u64add gpa size) (st.slots.getD i ⟨0, 0, 0⟩) = true :=
    (slotHits_iff gpa size _ hwf (fun hz => hbnd i hi hz)).mpr ⟨hact, hov1, hov2⟩
  obtain ⟨k, hk⟩ := findFirstIdx_isSome_of_hit (slotHits gpa (u64add gpa size))
    st.slots ⟨0, 0, 0⟩ i hi hhi
  have hkspec := findFirstIdx_some_spec _ _ (⟨0, 0, 0⟩ : HSlot) _ hk
  have hklt : k < st.slots.length := hkspec.1
  have hkhits := hkspec.2
  have hkact : (slotAt st.slots k).size ≠ 0 := hits_active _ _ _ hkhits
  have hkrange : ¬((slotAt st.slots k).start = gpa ∧ (slotAt st.slots k).size = size) := by
    rintro ⟨hks, hkz⟩
    by_cases hki : k = i
    · subst hki
      exact hne ⟨hks, hkz⟩
    · have hd := hdis k hklt i hi hki hkact hact
      rw [hks, hkz] at hd
      rcases hd with hc | hc <;> omega
  have hfind : hvf_find_overlap_slot st.slots gpa (u64add gpa size) = some k := hk
  simp only [hvf_map_safe]
  rw [hfind]
  dsimp only
  rw [if_neg (by rintro ⟨-, h2, h3⟩; exact hkrange ⟨h2, h3⟩)]
  rw [if_neg hkrange]



/-- C8 (amended): in every reachable state whose operations did not wrap
the 64-bit address space, gpa2hva returns the host address implied by the
active slot covering the address, and none when no active slot covers it. -/
theorem c8_gpa2hva_amended (st : MemState) (h : ReachesA st) (x : Nat) :
    (∀ i, i < st.slots.length → (slotAt st.slots i).size ≠ 0 →
        (slotAt st.slots i).start ≤ x →
        x < (slotAt st.slots i).start + (slotAt st.slots i).size →
        hvf_gpa2hva st.macs x =
          some (u64add (slotAt st.slots i).mem (x - (slotAt st.slots i).start))) ∧
    ((∀ i, i < st.slots.length → (slotAt st.slots i).size ≠ 0 →
        ¬((slotAt st.slots i).start ≤ x ∧
          x < (slotAt st.slots i).start + (slotAt st.slots i).size)) →
      hvf_gpa2hva st.macs x = none) := by
  obtain ⟨hlen, hbnd, hdis, hmir⟩ := ReachesA_Inv st h
  constructor
  · intro i hi hsz hle hlt
    have hmaci : macAt st.macs i = ⟨true, (slotAt st.slots i).size,
        (slotAt st.slots i).start, (slotAt st.slots i).mem⟩ := by
      have hm := hmir i hi
      rw [if_pos hsz] at hm
      exact hm
    have hfind : findFirstIdx
        (fun m => m.present && decide (x ≥ m.gpa_start) &&
          decide (x < u64add m.gpa_start m.size)) st.macs = some i := by
      apply findFirstIdx_unique _ _ ⟨false, 0, 0, 0⟩ i (by omega)
      · show ((macAt st.macs i).present && decide (x ≥ (macAt st.macs i).gpa_start) &&
          decide (x < u64add (macAt st.macs i).gpa_start (macAt st.macs i).size)) = true
        rw [hmaci]
        have hu : u64add (slotAt st.slots i).start (slotAt st.slots i).size =
            (slotAt st.slots i).start + (slotAt st.slots i).size :=
          u64add_eq _ _ (hbnd i hi hsz)
        dsimp only
        rw [hu]
        simp only [Bool.true_and, Bool.and_eq_true, decide_eq_true_eq]
        exact ⟨hle, hlt⟩
      · intro j hj hne
        have hjs : j < st.slots.length := by omega
        show ((macAt st.macs j).present && decide (x ≥ (macAt st.macs j).gpa_start) &&
          decide (x < u64add (macAt st.macs j).gpa_start (macAt st.macs j).size)) = false
        by_cases hact : (slotAt st.slots j).size ≠ 0
        · have hm := hmir j hjs
          rw [if_pos hact] at hm
          rw [hm]
          have hu : u64add (slotAt st.slots j).start (slotAt st.slots j).size =
              (slotAt st.slots j).start + (slotAt st.slots j).size :=
            u64add_eq _ _ (hbnd j hjs hact)
          dsimp only
          rw [hu]
          rw [Bool.eq_false_iff]
          intro hcon
          simp only [Bool.true_and, Bool.and_eq_true, decide_eq_true_eq] at hcon
          have hd := hdis i hi j hjs (fun hh => hne hh.symm) hsz hact
          rcases hcon with ⟨hc1, hc2⟩
          rcases hd with hc | hc <;> omega
        · have hm := hmir j hjs
          rw [if_neg hact] at hm
          rw [hm]
          rfl
    show (match findFirstIdx
        (fun m => m.present && decide (x ≥ m.gpa_start) &&
          decide (x < u64add m.gpa_start m.size)) st.macs with
      | some i => some (u64add (macAt st.macs i).hva (x - (macAt st.macs i).gpa_start))
      | none => none) =
      some (u64add (slotAt st.slots i).mem (x - (slotAt st.slots i).start))
    rw [hfind]
    dsimp only
    rw [hmaci]
  · intro hnone
    have hfind : findFirstIdx
        (fun m => m.present && decide (x ≥ m.gpa_start) &&
          decide (x < u64add m.gpa_start m.size)) st.macs = none := by
      rw [findFirstIdx_none_iff _ _ ⟨false, 0, 0, 0⟩]
      intro j hj
      have hjs : j < st.slots.length := by omega
      show ((macAt st.macs j).present && decide (x ≥ (macAt st.macs j).gpa_start) &&
        decide (x < u64add (macAt st.macs j).gpa_start (macAt st.macs j).size)) = false
      by_cases hact : (slotAt st.slots j).size ≠ 0
      · have hm := hmir j hjs
        rw [if_pos hact] at hm
        rw [hm]
        have hu : u64add (slotAt st.slots j).start (slotAt st.slots j).size =
            (slotAt st.slots j).start + (slotAt st.slots j).size :=
          u64add_eq _ _ (hbnd j hjs hact)
        dsimp only
        rw [hu]
        rw [Bool.eq_false_iff]
        intro hcon
        simp only [Bool.true_and, Bool.and_eq_true, decide_eq_true_eq] at hcon
        exact hnone j hjs hact ⟨hcon.1, hcon.2⟩
      · have hm := hmir j hjs
        rw [if_neg hact] at hm
        rw [hm]
        rfl
    show (match findFirstIdx
        (fun m => m.present && decide (x ≥ m.gpa_start) &&
          decide (x < u64add m.gpa_start m.size)) st.macs with
      | some i => some (u64add (macAt st.macs i).hva (x - (macAt st.macs i).gpa_start))
      | none => none) = none
    rw [hfind]


/-- C3 counterexample: from the all-free table, map gpa 0..0x1000 and gpa
0x2000..0x3000, then region-add gpa 0..0x3000 (a range spanning both slots).
hvf_set_phys_mem frees only the first overlapping slot it finds and then
claims the whole range into a fresh slot, so afterwards slot 0 covers
[0, 0x3000) while slot 1 still actively covers [0x2000, 0x3000): two active
slots whose guest-physical ranges intersect, violating the claimed
invariant. -/
theorem c3_span_region_add_counterexample :
    ((runOps regionSpanOps).map (fun st => (slotAt st.slots 0, slotAt st.slots 1))) =
      some (⟨0, 0x3000, 0xC000⟩, ⟨0x2000, 0x1000, 0xB000⟩) ∧
    ¬ slotsDisjoint ⟨0, 0x3000, 0xC000⟩ ⟨0x2000, 0x1000, 0xB000⟩ := by
  constructor
  · rfl
  · intro hd
    rcases hd (by decide) (by decide) with hc | hc <;> dsimp only at hc <;> omega

/-- C3 (amended): at every state reachable from the initial all-free table
by map/unmap/region-add/region-remove operations whose ranges do not wrap
the 64-bit address space and where every region-add range overlaps at most
one active slot, the guest-physical ranges [start, start+size) of any two
distinct active slots of the Slot Table are disjoint. -/
theorem c3_reachable_slots_disjoint (st : MemState) (h : ReachesA st) (i j : Nat)
    (hi : i < st.slots.length) (hj : j < st.slots.length) (hij : i ≠ j) :
    slotsDisjoint (slotAt st.slots i) (slotAt st.slots j) :=
  (ReachesA_Inv st h).2.2.1 i hi j hj hij

/-- The two-map state is reachable under the amended side conditions. -/
theorem ReachesA_twoMapsSt : ReachesA twoMapsSt :=
  ReachesA.step twoMapsSt1 twoMapsSt (MemOp.mapOp 0xB000 0x2000 0x1000 7)
    (ReachesA.step initState twoMapsSt1 (MemOp.mapOp 0xA000 0x0 0x1000 7)
      ReachesA.init (by decide : (0x0 : Nat) + 0x1000 < U64)
      (fun _ _ _ hco => nomatch hco) rfl)
    (by decide : (0x2000 : Nat) + 0x1000 < U64)
    (fun _ _ _ hco => nomatch hco) rfl

theorem c3_reachable_slots_disjoint_witness :
    slotsDisjoint (slotAt twoMapsSt.slots 0) (slotAt twoMapsSt.slots 1) :=
  c3_reachable_slots_disjoint twoMapsSt ReachesA_twoMapsSt 0 1 (by decide) (by decide)
    (by decide)

/-- C8 counterexample: map a slot covering the top page
[0xFFFFFFFFFFFFF000, 2^64). The address 0xFFFFFFFFFFFFFFFF lies inside
that mapping, yet hvf_gpa2hva reports not-found, because its upper-bound
test computes gpa_start + size in wrapping 64-bit arithmetic, which yields
0 for a range ending exactly at 2^64. -/
theorem c8_wrap_counterexample :
    ((runOps wrapMapOps).map (fun st =>
      (slotAt st.slots 0, hvf_gpa2hva st.macs 0xFFFFFFFFFFFFFFFF))) =
      some (⟨0xFFFFFFFFFFFFF000, 0x1000, 0x9000⟩, none) ∧
    (0xFFFFFFFFFFFFF000 : Nat) ≤ 0xFFFFFFFFFFFFFFFF ∧
    (0xFFFFFFFFFFFFFFFF : Nat) < 0xFFFFFFFFFFFFF000 + 0x1000 :=
  ⟨rfl, by decide, by decide⟩

theorem c8_gpa2hva_amended_witness : hvf_gpa2hva initState.macs 0 = none :=
  (c8_gpa2hva_amended initState ReachesA.init 0).2 (by
    intro i hi hsz
    rw [slotAt_initState] at hsz
    exact absurd rfl hsz)

theorem c5_map_exact_noop_witness :
    hvf_map_safe oneSlotSt 0xA000 0x1000 0x1000 7 = some (oneSlotSt, HV_SUCCESS) :=
  c5_map_exact_noop oneSlotSt (by unfold Inv slotsDisjoint; decide) 0 0x1000 0x1000 0xA000 7
    (by decide) (by decide) (by decide)

theorem c6_remap_one_unmap_one_map_witness :
    (hvf_map_safe oneSlotSt 0xB000 0x1000 0x1000 7).map (fun p => p.1.log) =
      some [HwCall.unmap 0x1000 0x1000, HwCall.map 0xB000 0x1000 0x1000 7] := by
  obtain ⟨st2, j, hmap, hlog, -, -, -⟩ := c6_remap_one_unmap_one_map oneSlotSt (by unfold Inv slotsDisjoint; decide)
    0 0x1000 0x1000 0xA000 0xB000 7 (by decide) (by decide) (by decide) (by decide)
  rw [hmap]
  simp only [Option.map_some']
  rw [hlog]
  rfl

theorem c7_partial_overlap_fatal_witness :
    hvf_map_safe partialSlotSt 0xB000 0x2800 0x1000 7 = none :=
  c7_partial_overlap_fatal partialSlotSt (by unfold Inv slotsDisjoint; decide) 0 0x2800 0x1000 0xB000 7
    (by decide) (by decide) (by decide) (by decide) (by decide) (by decide)



theorem hva2gpaStep_absent (hva length array_size : Nat) (acc : Nat × List (Nat × Nat))
    (m : MSlot) (h : m.present = false) :
    hva2gpaStep hva length array_size acc m = acc := by
  simp [hva2gpaStep, h]

theorem hva2gpa_foldl_filter (macs : List MSlot) (hva length array_size : Nat)
    (acc : Nat × List (Nat × Nat)) :
    macs.foldl (hva2gpaStep hva length array_size) acc =
      (macs.filter (fun m => m.present)).foldl (hva2gpaStep hva length array_size) acc := by
  induction macs generalizing acc with
  | nil => rfl
  | cons m t ih =>
    by_cases hp : m.present = true
    · rw [List.foldl_cons, ih, List.filter_cons, if_pos (by rw [hp]), List.foldl_cons]
    · rw [Bool.not_eq_true] at hp
      rw [List.foldl_cons, hva2gpaStep_absent _ _ _ _ _ hp, ih, List.filter_cons,
        if_neg (by rw [hp]; simp)]

/-- C9: a host-virtual range starting strictly inside mirror slot A and
ending strictly inside mirror slot B, whose host range is adjacent to A's,
yields exactly two fragments: the first ends at A's guest-physical end
boundary, the second starts at B's guest-physical start, and their sizes
sum to the queried length.  (A and B are the only present mirror slots, in
scan order; ranges do not wrap the 64-bit space.) -/
theorem c9_hva2gpa_two_adjacent_fragments (macs : List MSlot) (A B : MSlot)
    (hva length array_size : Nat)
    (hfil : macs.filter (fun m => m.present) = [A, B])
    (h1 : A.hva < hva) (h2 : hva < A.hva + A.size)
    (h3 : B.hva = A.hva + A.size)
    (h4 : B.hva < hva + length) (h5 : hva + length < B.hva + B.size)
    (h6 : B.hva + B.size < U64) (h7 : 2 ≤ array_size)
    (h8 : A.gpa_start + A.size < U64) :
    hvf_hva2gpa macs hva length array_size =
      (2, [(A.gpa_start + (hva - A.hva), A.size - (hva - A.hva)),
           (B.gpa_start, hva + length - B.hva)]) ∧
    (A.size - (hva - A.hva)) + (hva + length - B.hva) = length ∧
    (A.gpa_start + (hva - A.hva)) + (A.size - (hva - A.hva)) = A.gpa_start + A.size ∧
    (B.gpa_start, hva + length - B.hva).1 = B.gpa_start := by
  have hA : A.present = true := by
    have hm : A ∈ macs.filter (fun m => m.present) := by rw [hfil]; simp
    simpa using (List.mem_filter.mp hm).2
  have hB : B.present = true := by
    have hm : B ∈ macs.filter (fun m => m.present) := by rw [hfil]; simp
    simpa using (List.mem_filter.mp hm).2
  have e1 : u64add A.hva A.size = A.hva + A.size := u64add_eq _ _ (by omega)
  have e2 : u64add B.hva B.size = B.hva + B.size := u64add_eq _ _ h6
  have e3 : u64add hva length = hva + length := u64add_eq _ _ (by omega)
  have e4 : u64add A.gpa_start (hva - A.hva) = A.gpa_start + (hva - A.hva) :=
    u64add_eq _ _ (by omega)
  have hminr : min length (A.size - (hva - A.hva)) = A.size - (hva - A.hva) :=
    Nat.min_eq_right (by omega)
  have p1 : hva ≥ A.hva := by omega
  have p3 : ¬(hva ≥ B.hva) := by omega
  have p4 : hva + length ≤ B.hva + B.size := by omega
  have ha0 : (0 : Nat) < array_size := by omega
  have ha1 : (1 : Nat) < array_size := by omega
  refine ⟨?_, by omega, by omega, rfl⟩
  rw [hvf_hva2gpa, hva2gpa_foldl_filter, hfil]
  simp [hva2gpaStep, hA, hB, e1, e2, e3, e4, hminr, p1, h2, p3, p4, h4, ha0, ha1]

theorem c9_hva2gpa_two_adjacent_fragments_witness :
    hvf_hva2gpa [⟨true, 0x1000, 0x100000, 0x7000⟩, ⟨true, 0x1000, 0x200000, 0x8000⟩]
      0x7800 0x1000 16 = (2, [(0x100800, 0x800), (0x200000, 0x800)]) :=
  (c9_hva2gpa_two_adjacent_fragments
    [⟨true, 0x1000, 0x100000, 0x7000⟩, ⟨true, 0x1000, 0x200000, 0x8000⟩]
    ⟨true, 0x1000, 0x100000, 0x7000⟩ ⟨true, 0x1000, 0x200000, 0x8000⟩
    0x7800 0x1000 16 (by decide) (by decide) (by decide) (by decide) (by decide)
    (by decide) (by decide) (by decide) (by decide)).1


theorem regno_to_hv_xreg_id (n : Nat) (h : n ≤ 30) : regno_to_hv_xreg n = n := by
  simp [regno_to_hv_xreg, h]

theorem regno_to_hv_simd_id (n : Nat) (h : n ≠ 30) :
    regno_to_hv_simd_fp_reg_type n = n := by
  simp [regno_to_hv_simd_fp_reg_type, h]

theorem writeXregsLoop_apply (v hx : Nat → Nat) (n : Nat) (hn : n ≤ 31) (k : Nat) :
    writeXregsLoop v hx n k = if k < n then v k else hx k := by
  induction n with
  | zero => simp [writeXregsLoop]
  | succ m ih =>
    show Function.update (writeXregsLoop v hx m) (regno_to_hv_xreg m) (v m) k = _
    rw [regno_to_hv_xreg_id m (by omega), Function.update_apply]
    by_cases hk : k = m
    · subst hk
      simp
    · rw [if_neg hk, ih (by omega)]
      by_cases hlt : k < m
      · rw [if_pos hlt, if_pos (by omega)]
      · rw [if_neg hlt, if_neg (by omega)]

theorem writeSimdLoop_apply_le30 (v hq : Nat → Nat) (n : Nat) (hn : n ≤ 30) (k : Nat) :
    writeSimdLoop v hq n k = if k < n then v k else hq k := by
  induction n with
  | zero => simp [writeSimdLoop]
  | succ m ih =>
    show Function.update (writeSimdLoop v hq m) (regno_to_hv_simd_fp_reg_type m) (v m) k = _
    rw [regno_to_hv_simd_id m (by omega), Function.update_apply]
    by_cases hk : k = m
    · subst hk
      simp
    · rw [if_neg hk, ih (by omega)]
      by_cases hlt : k < m
      · rw [if_pos hlt, if_pos (by omega)]
      · rw [if_neg hlt, if_neg (by omega)]

/-- Full characterization of the SIMD push loop: hardware Q20 receives the
emulator register 30 (overwriting the value written for register 20), and
hardware Q30 is never written. -/
theorem writeSimdLoop_apply32 (v hq : Nat → Nat) (k : Nat) :
    writeSimdLoop v hq 32 k =
      if k = 31 then v 31 else if k = 20 then v 30 else if k < 30 then v k else hq k := by
  show Function.update (writeSimdLoop v hq 31) (regno_to_hv_simd_fp_reg_type 31) (v 31) k = _
  rw [regno_to_hv_simd_id 31 (by omega), Function.update_apply]
  by_cases hk : k = 31
  · rw [if_pos hk, if_pos hk]
  · rw [if_neg hk, if_neg hk]
    show Function.update (writeSimdLoop v hq 30) (regno_to_hv_simd_fp_reg_type 30) (v 30) k = _
    rw [show regno_to_hv_simd_fp_reg_type 30 = 20 from rfl, Function.update_apply]
    by_cases hk20 : k = 20
    · rw [if_pos hk20, if_pos hk20]
    · rw [if_neg hk20, if_neg hk20, writeSimdLoop_apply_le30 v hq 30 (by omega)]

theorem hvf_put_registers_idem (e : Env) (h : Hw) :
    hvf_put_registers (hvf_put_registers e h).1 (hvf_put_registers e h).2 =
      hvf_put_registers e h := by
  have hx : ∀ (v hx0 : Nat → Nat),
      writeXregsLoop v (writeXregsLoop v hx0 31) 31 = writeXregsLoop v hx0 31 := by
    intro v hx0
    funext k
    rw [writeXregsLoop_apply v (writeXregsLoop v hx0 31) 31 (by omega) k]
    by_cases hk : k < 31
    · rw [if_pos hk, writeXregsLoop_apply v hx0 31 (by omega) k, if_pos hk]
    · rw [if_neg hk]
  have hq : ∀ (v hq0 : Nat → Nat),
      writeSimdLoop v (writeSimdLoop v hq0 32) 32 = writeSimdLoop v hq0 32 := by
    intro v hq0
    funext k
    rw [writeSimdLoop_apply32 v (writeSimdLoop v hq0 32) k]
    by_cases h31 : k = 31
    · rw [if_pos h31, writeSimdLoop_apply32 v hq0 k, if_pos h31]
    · rw [if_neg h31]
      by_cases h20 : k = 20
      · rw [if_pos h20, writeSimdLoop_apply32 v hq0 k, if_neg h31, if_pos h20]
      · rw [if_neg h20]
        by_cases h30 : k < 30
        · rw [if_pos h30, writeSimdLoop_apply32 v hq0 k, if_neg h31, if_neg h20, if_pos h30]
        · rw [if_neg h30]
  simp only [hvf_put_registers, aarch64_save_sp, pstate_read]
  by_cases hb : e.pstate &&& PSTATE_SP ≠ 0 <;> simp [hb, hx, hq]

/-- C4: after any exception exit handled without aborting, by the time the
run loop reaches the next hv_vcpu_run call the vCPU is clean
(hvf_vcpu_dirty = false) and the hardware register file agrees with a full
push of the final emulator register state (pushing again changes nothing). -/
theorem c4_pushed_and_clean_at_next_run (hooks : ExtHooks) (st st2 : VState)
    (hre : st.reason = ExitReason.exception)
    (h : stateAtNextRun hooks st = some st2) :
    st2.dirty = false ∧ hvf_put_registers st2.env st2.hw = (st2.env, st2.hw) := by
  unfold stateAtNextRun hvf_vcpu_exec_dispatch at h
  rw [hre] at h
  cases hex : hvf_handle_exception hooks st with
  | none =>
    rw [hex] at h
    cases h
  | some s1 =>
    rw [hex] at h
    simp only [Option.map_some', Option.some.injEq] at h
    subst h
    have hlt : hvf_loop_top { s1 with dirty := true } =
        { s1 with env := (hvf_put_registers s1.env s1.hw).1,
                  hw := (hvf_put_registers s1.env s1.hw).2, dirty := false } := by
      rw [hvf_loop_top, if_pos rfl]
    rw [hlt]
    refine ⟨rfl, ?_⟩
    dsimp only
    rw [hvf_put_registers_idem s1.env s1.hw]

theorem c4_pushed_and_clean_at_next_run_witness :
    (stateAtNextRun idHooks wfeVState).map (fun s => s.dirty) = some false := by
  have hne : (stateAtNextRun idHooks wfeVState).isSome = true := rfl
  cases hcase : stateAtNextRun idHooks wfeVState with
  | none => rw [hcase] at hne; cases hne
  | some s2 =>
    have hd := (c4_pushed_and_clean_at_next_run idHooks wfeVState s2 rfl hcase).1
    rw [Option.map_some', hd]

/-- C2 counterexample evaluation: pushing then pulling with no intervening
run replaces SIMD register 20 with the old value of SIMD register 30
(regno_to_hv_simd_fp_reg_type maps 30 to Q20). -/
theorem c2_push_pull_corrupts_q20 :
    (pushPullRoundTrip vregsIdxEnv zeroHw).map (fun e => (e.vregs 20, e.vregs 30)) =
      some (30, 30) ∧ vregsIdxEnv.vregs 20 = 20 ∧ vregsIdxEnv.vregs 30 = 30 :=
  ⟨rfl, rfl, rfl⟩

/-- C1 evaluation at the failing input: a width-2 MMIO read issues exactly
one 2-byte bus read at the faulting address and advances the pc by 4, but
stores the full 8-byte scratch value (stale upper bytes included) into the
target register instead of the 2-byte zero-extended bus value. -/
theorem c1_width2_read_untruncated :
    (hvf_handle_mmio mmioEnv 0x1450000 0xABCD (fun _ _ => 0x1234)
        0xDEADBEEF00000000).map (fun p => (p.1.xregs 5, p.1.pc, p.2)) =
      some (0xDEADBEEF00001234, 0x4004, [BusTx.read 0xABCD 2]) ∧
    (0xDEADBEEF00001234 : Nat) ≠ 0x1234 :=
  ⟨rfl, by decide⟩

/-- C10: register 31 reads as zero and discards writes; an MMIO read whose
decoded target register is 31 still issues its single bus read transaction
and leaves every general-purpose register unchanged. -/
theorem c10_register31_reads_zero_discards_writes (env : Env) (esr gpa : Nat)
    (bus : Nat → Nat → Nat) (buf0 : Nat)
    (hisv : esr &&& ESR_ELx_ISV ≠ 0)
    (hea : esr &&& ESR_ELx_EA = 0) (hptw : esr &&& ESR_ELx_S1PTW = 0)
    (hwnr : esr &&& ESR_ELx_WNR = 0)
    (hrt : (esr &&& ESR_ELx_SRT_MASK) >>> ESR_ELx_SRT_SHIFT = 31) :
    hvf_read_rt env 31 = 0 ∧
    (∀ v, hvf_write_rt env 31 v = env) ∧
    hvf_handle_mmio env esr gpa bus buf0 =
      some (hvf_skip_instr env,
        [BusTx.read gpa (2 ^ ((esr &&& ESR_ELx_SAS) >>> ESR_ELx_SAS_SHIFT))]) ∧
    (hvf_skip_instr env).xregs = env.xregs := by
  have b1 : ((esr &&& ESR_ELx_ISV) == 0) = false := by
    simpa using hisv
  have b2 : ((esr &&& ESR_ELx_EA) != 0) = false := by simp [hea]
  have b3 : ((esr &&& ESR_ELx_S1PTW) != 0) = false := by simp [hptw]
  have b4 : ((esr &&& ESR_ELx_WNR) != 0) = false := by simp [hwnr]
  refine ⟨rfl, fun v => by rw [hvf_write_rt, if_neg (by omega)], ?_, rfl⟩
  simp only [hvf_handle_mmio, hvf_decode_hsr, hvf_vcpu_dabt_get_rd, hvf_vcpu_dabt_get_as,
    b1, b2, b3, b4, hrt, Bool.false_eq_true, if_false]
  rw [hvf_write_rt, if_neg (by omega)]

theorem c10_register31_reads_zero_discards_writes_witness :
    hvf_read_rt zeroEnv 31 = 0 ∧
    hvf_handle_mmio zeroEnv 0x17F0000 0xF000 (fun _ _ => 0x77) 0 =
      some (hvf_skip_instr zeroEnv, [BusTx.read 0xF000 2]) := by
  have hc := c10_register31_reads_zero_discards_writes zeroEnv 0x17F0000 0xF000
    (fun _ _ => 0x77) 0 (by decide) (by decide) (by decide) (by decide) (by decide)
  exact ⟨hc.1, hc.2.2.1⟩


end HvfModel
